import Mathlib

/-!
Verification development for the `store` repository: a routing façade over
heterogeneous object-storage backends.  Go strings are embedded as `List Char`
(`GoStr`), Go's `error` values as `Option String` (`none` is the nil error),
and Go multi-value returns as tuples.  The relevant fragment of Go's
`net/url.Parse` is embedded for the path-classification layer
(`src/protocol.go`), and the two generations of the `Store` façade present in
the sources are embedded separately (`V1` from `src/store.go`, `V2` from the
newer `store.go` text kept in `src/s3_test.go`).
-/

/-- Go strings, embedded as lists of characters. -/
abbrev GoStr := List Char

/-- Go `error` values: `none` is Go's `nil` error, `some msg` an error whose
`Error()` text is `msg`. -/
abbrev GoError := Option GoStr

/-- Byte slices, abstracted: the contents are irrelevant to the routing layer. -/
abbrev Bytes := List Nat

/-- Result of `FileStat` in `store.go`. -/
structure FileStat where
  Size : Int
deriving Repr, DecidableEq

/-- Outcome of calling a Go function that can terminate abnormally: either the
ordinary tuple of return values, or a runtime panic carrying its message. -/
inductive Res (α : Type) where
  | val : α → Res α
  | panicked : GoStr → Res α
deriving Repr, DecidableEq

/-! ## The modelled fragment of Go `net/url.Parse`

`src/protocol.go` classifies paths with `url.Parse`.  We embed `Parse`
(with `viaRequest = false`) for inputs that stay inside this fragment:
no percent-escapes (`%`) and no bracketed (IPv6) hosts — on such inputs Go's
`unescape` is the identity and the bracket branch of `parseHost` is never
taken; the model maps them to a parse error instead, and no theorem below
evaluates the parser outside the fragment.  `strings.ToLower` on the scheme is
modelled for ASCII letters, which is exact for every scheme-shaped token. -/

/-- Relevant fields of Go's `url.URL`. -/
structure URL where
  Scheme : GoStr
  Opaque : GoStr
  Host : GoStr
  Path : GoStr
deriving Repr, DecidableEq

/-- Go `strings.TrimPrefix(s, "/")`: drop one leading slash if present. -/
def trimLeadSlash : GoStr → GoStr
  | '/' :: rest => rest
  | l => l

/-- Split at the first occurrence of `sep`, dropping it (Go `split(s, sep, true)`):
`none` if `sep` does not occur. -/
def cutChar (sep : Char) : GoStr → Option (GoStr × GoStr)
  | [] => none
  | c :: rest =>
    if c = sep then some ([], rest)
    else match cutChar sep rest with
      | none => none
      | some (pre, post) => some (c :: pre, post)

/-- Split at the last occurrence of `sep`, dropping it: `none` if absent. -/
def cutLastChar (sep : Char) : GoStr → Option (GoStr × GoStr)
  | [] => none
  | c :: rest =>
    match cutLastChar sep rest with
    | some (pre, post) => some (c :: pre, post)
    | none => if c = sep then some ([], rest) else none

/-- Go `stringContainsCTLByte`: a byte below space, or DEL. -/
def ctlChar (c : Char) : Bool := c < ' ' || c = '\x7f'

/-- ASCII lower-casing, as `strings.ToLower` acts on scheme-shaped tokens. -/
def lowerChar (c : Char) : Bool × Char :=
  if 'A' ≤ c && c ≤ 'Z' then (true, Char.ofNat (c.toNat + 32)) else (false, c)

/-- Lower-case a scheme. -/
def lowerStr (l : GoStr) : GoStr := l.map (fun c => (lowerChar c).2)

/-- First-position characters of a scheme (`getScheme`): ASCII letters. -/
def schemeAlpha (c : Char) : Bool :=
  ('a' ≤ c && c ≤ 'z') || ('A' ≤ c && c ≤ 'Z')

/-- Non-first characters of a scheme (`getScheme`): letters, digits, `+`, `-`, `.`. -/
def schemeRest (c : Char) : Bool :=
  schemeAlpha c || ('0' ≤ c && c ≤ '9') || c = '+' || c = '-' || c = '.'

/-- Result of Go's `getScheme`. -/
inductive SchemeRes where
  | err : GoStr → SchemeRes
  | found : GoStr → GoStr → SchemeRes
  | noScheme : SchemeRes
deriving Repr, DecidableEq

/-- Scan loop of `getScheme` past the first character; `acc` holds the scheme
candidate read so far, reversed. -/
def getSchemeLoop : GoStr → GoStr → SchemeRes
  | [], _ => .noScheme
  | c :: rest, acc =>
    if c = ':' then .found acc.reverse rest
    else if schemeRest c then getSchemeLoop rest (c :: acc)
    else .noScheme

/-- Go `getScheme`: split a leading `scheme:`.  A `:` in first position is an
error; a non-letter first character, or any non-scheme character before a `:`,
means the whole string is taken as the remainder with no scheme. -/
def getScheme : GoStr → SchemeRes
  | [] => .noScheme
  | c :: rest =>
    if c = ':' then .err ('m' :: "issing protocol scheme".toList)
    else if schemeAlpha c then getSchemeLoop rest [c]
    else .noScheme

/-- Go `validOptionalPort`: empty, or `:` followed by digits only. -/
def validOptionalPort : GoStr → Bool
  | [] => true
  | ':' :: digits => digits.all fun c => '0' ≤ c && c ≤ '9'
  | _ => false

/-- Go `parseHost`, restricted to the modelled fragment: hosts with a
bracketed (IPv6) segment or a percent-escape are outside the fragment and map
to an error; otherwise the port suffix after the last `:` is validated and the
host is returned verbatim (Go's `unescape` is the identity without `%`). -/
def parseHost (host : GoStr) : Except GoStr GoStr :=
  if host.take 1 = ['['] then .error ("host outside modelled fragment".toList)
  else
    let portOk := match cutLastChar ':' host with
      | none => true
      | some (_, post) => validOptionalPort (':' :: post)
    if !portOk then .error ("invalid port after host".toList)
    else if host.contains '%' then .error ("host outside modelled fragment".toList)
    else .ok host

/-- Go `validUserinfo`: the characters permitted before `@` in an authority. -/
def validUserinfoChar (c : Char) : Bool :=
  schemeAlpha c || ('0' ≤ c && c ≤ '9') ||
    c = '-' || c = '.' || c = '_' || c = ':' || c = '~' || c = '!' || c = '$' ||
    c = '&' || c = '\'' || c = '(' || c = ')' || c = '*' || c = '+' || c = ',' ||
    c = ';' || c = '=' || c = '%' || c = '@'

/-- Go `parseAuthority`: the host is the part after the last `@`; the userinfo
before it is validated (its unescaping is outside the modelled fragment when it
holds `%`). -/
def parseAuthority (authority : GoStr) : Except GoStr GoStr :=
  match cutLastChar '@' authority with
  | none => parseHost authority
  | some (userinfo, hostPart) =>
    match parseHost hostPart with
    | .error e => .error e
    | .ok host =>
      if !(userinfo.all validUserinfoChar) then .error ("net/url: invalid userinfo".toList)
      else if userinfo.contains '%' then .error ("userinfo outside modelled fragment".toList)
      else .ok host

/-- Go `url.setPath`, in the fragment without percent-escapes. -/
def setPath (l : GoStr) : Except GoStr GoStr :=
  if l.contains '%' then .error ("path outside modelled fragment".toList)
  else .ok l

/-- Query removal in Go `parse`: a single trailing `?` flags `ForceQuery` and
is dropped; otherwise everything from the first `?` on is the raw query. -/
def stripQuery (rest0 : GoStr) : GoStr :=
  if rest0.getLast? == some '?' && !(rest0.dropLast.contains '?') then rest0.dropLast
  else match cutChar '?' rest0 with
    | none => rest0
    | some (pre, _) => pre

/-- The first path segment: everything before the first `/`. -/
def firstSegment (l : GoStr) : GoStr :=
  match cutChar '/' l with
  | none => l
  | some (seg, _) => seg

/-- Authority step of Go `parse`: `afterSlashes` is the remainder past the
leading `//`; the authority runs to the first `/`, the path keeps that `/`. -/
def parseAuthorityAndPath (scheme afterSlashes : GoStr) : Except GoStr URL :=
  match cutChar '/' afterSlashes with
  | none =>
    match parseAuthority afterSlashes with
    | .error e => .error e
    | .ok host =>
      match setPath [] with
      | .error e => .error e
      | .ok path => .ok ⟨scheme, [], host, path⟩
  | some (pre, post) =>
    match parseAuthority pre with
    | .error e => .error e
    | .ok host =>
      match setPath ('/' :: post) with
      | .error e => .error e
      | .ok path => .ok ⟨scheme, [], host, path⟩

/-- Steps of Go `parse` past scheme and query extraction (`viaRequest` is
false): a rootless remainder after a scheme is opaque; with no scheme a
leading-segment colon is rejected; `//` introduces an authority unless the
whole schemeless remainder starts `///`; what is left is the path. -/
def parseAfterScheme (scheme rest1 : GoStr) : Except GoStr URL :=
  if !(rest1.take 1 == ['/']) && !(scheme == []) then .ok ⟨scheme, rest1, [], []⟩
  else if !(rest1.take 1 == ['/']) && scheme == [] && (firstSegment rest1).contains ':' then
    .error ("first path segment in URL cannot contain colon".toList)
  else if (!(scheme == []) || !(rest1.take 3 == ['/', '/', '/'])) && rest1.take 2 == ['/', '/'] then
    parseAuthorityAndPath scheme (rest1.drop 2)
  else
    match setPath rest1 with
    | .error e => .error e
    | .ok path => .ok ⟨scheme, [], [], path⟩

/-- Body of Go `url.parse(rawURL, false)` after the fragment has been cut off. -/
def urlParseBody (rawURL : GoStr) : Except GoStr URL :=
  if rawURL.any ctlChar then .error ("net/url: invalid control character in URL".toList)
  else if rawURL = ['*'] then .ok ⟨[], [], [], ['*']⟩
  else
    match getScheme rawURL with
    | .err e => .error e
    | .found s r => parseAfterScheme (lowerStr s) (stripQuery r)
    | .noScheme => parseAfterScheme [] (stripQuery rawURL)

/-- Go `url.Parse`: cut the fragment at the first `#`, then parse the rest. -/
def urlParse (rawURL : GoStr) : Except GoStr URL :=
  match cutChar '#' rawURL with
  | none => urlParseBody rawURL
  | some (before, _) => urlParseBody before

/-! ## `src/protocol.go`: `GetPathProtocol` and `IsUnionPath` -/

/-- Protocol tags are strings in the source (`type PathProtocol string`). -/
abbrev PathProtocol := GoStr

/-- Tag of the Qiniu object store. -/
def QiniuProtocol : PathProtocol := "qiniu".toList

/-- Tag of the S3 object store. -/
def S3Protocol : PathProtocol := "s3".toList

/-- Tag of the local filesystem (the empty scheme). -/
def OSProtocol : PathProtocol := []

/-- Tag for unclassifiable paths. -/
def UnknownPathProtocol : PathProtocol := "unknown".toList

/-- Embedding of `GetPathProtocol` (src/protocol.go lines 25-53): parse the
path as a URL, reject an empty path component and any network host, then
dispatch on the scheme, stripping the leading slash for object-store keys. -/
def GetPathProtocol (p : GoStr) : PathProtocol × GoStr × GoError :=
  match urlParse p with
  | .error e => (UnknownPathProtocol, [], some e)
  | .ok u =>
    if u.Path = [] then
      (UnknownPathProtocol, trimLeadSlash u.Path, some ("unsupported path: ".toList ++ p))
    else if u.Host ≠ [] then
      (UnknownPathProtocol, trimLeadSlash u.Path, some ("unsupported network path: ".toList ++ p))
    else if u.Scheme = QiniuProtocol then (QiniuProtocol, trimLeadSlash u.Path, none)
    else if u.Scheme = S3Protocol then (S3Protocol, trimLeadSlash u.Path, none)
    else if u.Scheme = OSProtocol then
      if u.Path.take 1 = ['/'] then (OSProtocol, u.Path, none)
      else (UnknownPathProtocol, u.Path, some ("unsupported path: ".toList ++ p))
    else (UnknownPathProtocol, u.Path, none)

/-- Embedding of `IsUnionPath` (src/protocol.go lines 55-68). -/
def IsUnionPath (p : GoStr) : Bool :=
  match GetPathProtocol p with
  | (_, _, some _) => false
  | (proto, _, none) => if proto = OSProtocol then false else true

/-! ## The backend interface (`Interface` in `store.go`)

A backend is an opaque record of operations.  Each operation returns the Go
tuple of results wrapped in `Res`: a Go interface method dispatches into
arbitrary code and may also terminate in a panic.  `io.Reader` arguments and
`io.ReadCloser` results are modelled by the byte streams they carry. -/

structure Backend where
  Stat : GoStr → Res (FileStat × GoError)
  UploadData : Bytes → GoStr → Res GoError
  Upload : GoStr → GoStr → Res GoError
  UploadReader : Bytes → Int → GoStr → Res GoError
  DeleteDirectory : GoStr → Res GoError
  Delete : GoStr → Res GoError
  Exists : GoStr → Res (Bool × GoError)
  DownloadBytes : GoStr → Res (Option Bytes × GoError)
  DownloadReader : GoStr → Res (Option Bytes × GoError)
  DownloadRangeBytes : GoStr → Int → Int → Res (Option Bytes × GoError)
  DownloadRangeReader : GoStr → Int → Int → Res (Option Bytes × GoError)
  ListPrefix : GoStr → Res (Option (List GoStr) × GoError)

/-- Calling a method through a possibly-nil Go interface value: a call on the
nil interface is a runtime panic. -/
def callBackend (ob : Option Backend) (f : Backend → Res α) : Res α :=
  match ob with
  | none => Res.panicked "runtime error: invalid memory address or nil pointer dereference".toList
  | some b => f b

/-! ## V1 façade: `Store` of `src/store.go`

The older generation: routing never checks a resolved backend pair for nil,
read operations fall back to the reader backend on a primary error (except
`Exists`, which falls back only on a `(false, nil)` answer, and `ListPrefix`,
which never falls back), and nothing recovers from panics. -/

structure V1.Store where
  osStore : Option Backend
  qiniuStore : Option Backend
  qiniuReaderStore : Option Backend
  s3Store : Option Backend
  s3ReaderStore : Option Backend

/-- Embedding of `Store.getStoreByKey` (src/store.go lines 174-189). -/
def V1.Store.getStoreByKey (s : V1.Store) (key : GoStr) :
    Option Backend × Option Backend × GoStr × GoError :=
  match GetPathProtocol key with
  | (_, p, some e) => (none, none, p, some e)
  | (pp, p, none) =>
    if pp = QiniuProtocol then (s.qiniuStore, s.qiniuReaderStore, p, none)
    else if pp = S3Protocol then (s.s3Store, s.s3ReaderStore, p, none)
    else if pp = OSProtocol then (s.osStore, none, p, none)
    else (none, none, p,
      some ("unsupported file path protocol: ".toList ++ pp ++ ", ".toList ++ key))

/-- Embedding of `Store.ListPrefix` (src/store.go lines 52-58): the reader
backend returned by `getStoreByKey` is discarded. -/
def V1.Store.ListPrefix (s : V1.Store) (key : GoStr) : Res (Option (List GoStr) × GoError) :=
  match s.getStoreByKey key with
  | (_, _, _, some e) => .val (none, some e)
  | (st, _, p, none) => callBackend st fun b => b.ListPrefix p

/-- Embedding of `Store.UploadData` (src/store.go lines 60-66). -/
def V1.Store.UploadData (s : V1.Store) (data : Bytes) (key : GoStr) : Res GoError :=
  match s.getStoreByKey key with
  | (_, _, _, some e) => .val (some e)
  | (st, _, p, none) => callBackend st fun b => b.UploadData data p

/-- Embedding of `Store.Upload` (src/store.go lines 68-74). -/
def V1.Store.Upload (s : V1.Store) (file key : GoStr) : Res GoError :=
  match s.getStoreByKey key with
  | (_, _, _, some e) => .val (some e)
  | (st, _, p, none) => callBackend st fun b => b.Upload file p

/-- Embedding of `Store.UploadReader` (src/store.go lines 76-82). -/
def V1.Store.UploadReader (s : V1.Store) (reader : Bytes) (size : Int) (key : GoStr) :
    Res GoError :=
  match s.getStoreByKey key with
  | (_, _, _, some e) => .val (some e)
  | (st, _, p, none) => callBackend st fun b => b.UploadReader reader size p

/-- Embedding of `Store.DeleteDirectory` (src/store.go lines 84-90). -/
def V1.Store.DeleteDirectory (s : V1.Store) (dir : GoStr) : Res GoError :=
  match s.getStoreByKey dir with
  | (_, _, _, some e) => .val (some e)
  | (st, _, p, none) => callBackend st fun b => b.DeleteDirectory p

/-- Embedding of `Store.Delete` (src/store.go lines 92-98). -/
def V1.Store.Delete (s : V1.Store) (key : GoStr) : Res GoError :=
  match s.getStoreByKey key with
  | (_, _, _, some e) => .val (some e)
  | (st, _, p, none) => callBackend st fun b => b.Delete p

/-- Embedding of `Store.Exists` (src/store.go lines 100-112): a primary error
is returned at once; the reader is consulted only on a `(false, nil)` answer. -/
def V1.Store.Exists (s : V1.Store) (key : GoStr) : Res (Bool × GoError) :=
  match s.getStoreByKey key with
  | (_, _, _, some e) => .val (false, some e)
  | (st, rt, p, none) =>
    match callBackend st fun b => b.Exists p with
    | .panicked m => .panicked m
    | .val (_, some err1) => .val (false, some err1)
    | .val (e, none) =>
      if !e then
        match rt with
        | some r => r.Exists p
        | none => .val (e, none)
      else .val (e, none)

/-- Embedding of `Store.Stat` (src/store.go lines 114-124). -/
def V1.Store.Stat (s : V1.Store) (key : GoStr) : Res (FileStat × GoError) :=
  match s.getStoreByKey key with
  | (_, _, _, some e) => .val (⟨0⟩, some e)
  | (st, rt, p, none) =>
    match callBackend st fun b => b.Stat p with
    | .panicked m => .panicked m
    | .val (fi, err1) =>
      match err1, rt with
      | some _, some r => r.Stat p
      | _, _ => .val (fi, err1)

/-- Embedding of `Store.DownloadBytes` (src/store.go lines 126-136). -/
def V1.Store.DownloadBytes (s : V1.Store) (key : GoStr) : Res (Option Bytes × GoError) :=
  match s.getStoreByKey key with
  | (_, _, _, some e) => .val (none, some e)
  | (st, rt, p, none) =>
    match callBackend st fun b => b.DownloadBytes p with
    | .panicked m => .panicked m
    | .val (data, err1) =>
      match err1, rt with
      | some _, some r => r.DownloadBytes p
      | _, _ => .val (data, err1)

/-- Embedding of `Store.DownloadReader` (src/store.go lines 138-148). -/
def V1.Store.DownloadReader (s : V1.Store) (key : GoStr) : Res (Option Bytes × GoError) :=
  match s.getStoreByKey key with
  | (_, _, _, some e) => .val (none, some e)
  | (st, rt, p, none) =>
    match callBackend st fun b => b.DownloadReader p with
    | .panicked m => .panicked m
    | .val (reader, err1) =>
      match err1, rt with
      | some _, some r => r.DownloadReader p
      | _, _ => .val (reader, err1)

/-- Embedding of `Store.DownloadRangeBytes` (src/store.go lines 150-160). -/
def V1.Store.DownloadRangeBytes (s : V1.Store) (key : GoStr) (offset size : Int) :
    Res (Option Bytes × GoError) :=
  match s.getStoreByKey key with
  | (_, _, _, some e) => .val (none, some e)
  | (st, rt, p, none) =>
    match callBackend st fun b => b.DownloadRangeBytes p offset size with
    | .panicked m => .panicked m
    | .val (data, err1) =>
      match err1, rt with
      | some _, some r => r.DownloadRangeBytes p offset size
      | _, _ => .val (data, err1)

/-- Embedding of `Store.DownloadRangeReader` (src/store.go lines 162-172). -/
def V1.Store.DownloadRangeReader (s : V1.Store) (key : GoStr) (offset size : Int) :
    Res (Option Bytes × GoError) :=
  match s.getStoreByKey key with
  | (_, _, _, some e) => .val (none, some e)
  | (st, rt, p, none) =>
    match callBackend st fun b => b.DownloadRangeReader p offset size with
    | .panicked m => .panicked m
    | .val (reader, err1) =>
      match err1, rt with
      | some _, some r => r.DownloadRangeReader p offset size
      | _, _ => .val (reader, err1)

/-! ## V2 façade: the newer `store.go` (kept in `src/s3_test.go`, lines 191-568)

This generation adds a not-configured routing error when neither backend of an
object-store protocol is present, explicit nil checks before every primary
call, and a `defer recover()` boundary on the six read-class methods (`Stat`,
`Exists`, `DownloadBytes`, `DownloadReader`, `DownloadRangeBytes`,
`DownloadRangeReader`) that turns a panic into the error `recover: <v>`.
The write-class methods and `ListPrefix` have no such boundary.  The models of
the read-class methods reproduce Go's named-return semantics: a panic leaves
the data component at the value it last held. -/

structure V2.Store where
  osStore : Option Backend
  qiniuStore : Option Backend
  qiniuReaderStore : Option Backend
  s3Store : Option Backend
  s3ReaderStore : Option Backend

/-- Text of `ErrNotConfigured` in the newer `store.go`. -/
def V2.ErrNotConfigured : GoStr := "store is not configured".toList

/-- Message attached by a `recover()` boundary: `fmt.Errorf("recover: %v", r)`. -/
def recoverMsg (m : GoStr) : GoError := some ("recover: ".toList ++ m)

/-- Embedding of the newer `Store.getStoreByKey` (src/s3_test.go lines
458-479): a protocol both of whose backends are nil yields the error
`<protocol> store is not configured`. -/
def V2.Store.getStoreByKey (s : V2.Store) (key : GoStr) :
    Option Backend × Option Backend × GoStr × GoError :=
  match GetPathProtocol key with
  | (_, p, some e) => (none, none, p, some e)
  | (pp, p, none) =>
    if pp = QiniuProtocol then
      match s.qiniuStore, s.qiniuReaderStore with
      | none, none => (none, none, p, some (pp ++ [' '] ++ V2.ErrNotConfigured))
      | st, rt => (st, rt, p, none)
    else if pp = S3Protocol then
      match s.s3Store, s.s3ReaderStore with
      | none, none => (none, none, p, some (pp ++ [' '] ++ V2.ErrNotConfigured))
      | st, rt => (st, rt, p, none)
    else if pp = OSProtocol then (s.osStore, none, p, none)
    else (none, none, p,
      some ("unsupported file path protocol: ".toList ++ pp ++ ", ".toList ++ key))

/-- Embedding of the newer `Store.ListPrefix` (src/s3_test.go lines 243-252):
nil-checked primary call, no reader fallback, no recover boundary. -/
def V2.Store.ListPrefix (s : V2.Store) (key : GoStr) : Res (Option (List GoStr) × GoError) :=
  match s.getStoreByKey key with
  | (_, _, _, some e) => .val (none, some e)
  | (st, _, p, none) =>
    match st with
    | none => .val (none, some V2.ErrNotConfigured)
    | some b => b.ListPrefix p

/-- Embedding of the newer `Store.UploadData` (src/s3_test.go lines 254-263). -/
def V2.Store.UploadData (s : V2.Store) (data : Bytes) (key : GoStr) : Res GoError :=
  match s.getStoreByKey key with
  | (_, _, _, some e) => .val (some e)
  | (st, _, p, none) =>
    match st with
    | none => .val (some V2.ErrNotConfigured)
    | some b => b.UploadData data p

/-- Embedding of the newer `Store.Upload` (src/s3_test.go lines 265-274). -/
def V2.Store.Upload (s : V2.Store) (file key : GoStr) : Res GoError :=
  match s.getStoreByKey key with
  | (_, _, _, some e) => .val (some e)
  | (st, _, p, none) =>
    match st with
    | none => .val (some V2.ErrNotConfigured)
    | some b => b.Upload file p

/-- Embedding of the newer `Store.UploadReader` (src/s3_test.go lines 276-285). -/
def V2.Store.UploadReader (s : V2.Store) (reader : Bytes) (size : Int) (key : GoStr) :
    Res GoError :=
  match s.getStoreByKey key with
  | (_, _, _, some e) => .val (some e)
  | (st, _, p, none) =>
    match st with
    | none => .val (some V2.ErrNotConfigured)
    | some b => b.UploadReader reader size p

/-- Embedding of the newer `Store.DeleteDirectory` (src/s3_test.go lines 287-296). -/
def V2.Store.DeleteDirectory (s : V2.Store) (dir : GoStr) : Res GoError :=
  match s.getStoreByKey dir with
  | (_, _, _, some e) => .val (some e)
  | (st, _, p, none) =>
    match st with
    | none => .val (some V2.ErrNotConfigured)
    | some b => b.DeleteDirectory p

/-- Embedding of the newer `Store.Delete` (src/s3_test.go lines 298-307). -/
def V2.Store.Delete (s : V2.Store) (key : GoStr) : Res GoError :=
  match s.getStoreByKey key with
  | (_, _, _, some e) => .val (some e)
  | (st, _, p, none) =>
    match st with
    | none => .val (some V2.ErrNotConfigured)
    | some b => b.Delete p

/-- Embedding of the newer `Store.Exists` (src/s3_test.go lines 309-330):
recover boundary; a primary error is returned at once, the reader is consulted
when the primary is nil or answers `(false, nil)`. -/
def V2.Store.Exists (s : V2.Store) (key : GoStr) : Res (Bool × GoError) :=
  match s.getStoreByKey key with
  | (_, _, _, some e) => .val (false, some e)
  | (st, rt, p, none) =>
    match st with
    | some b =>
      match b.Exists p with
      | .panicked m => .val (false, recoverMsg m)
      | .val (_, some err1) => .val (false, some err1)
      | .val (e1, none) =>
        if e1 then .val (e1, none)
        else
          match rt with
          | some r =>
            match r.Exists p with
            | .panicked m => .val (false, recoverMsg m)
            | .val v => .val v
          | none => .val (false, none)
    | none =>
      match rt with
      | some r =>
        match r.Exists p with
        | .panicked m => .val (false, recoverMsg m)
        | .val v => .val v
      | none => .val (false, none)

/-- Embedding of the newer `Store.Stat` (src/s3_test.go lines 332-355):
recover boundary; primary, then reader, the reader's error surfacing when both
fail. -/
def V2.Store.Stat (s : V2.Store) (key : GoStr) : Res (FileStat × GoError) :=
  match s.getStoreByKey key with
  | (_, _, _, some e) => .val (⟨0⟩, some e)
  | (st, rt, p, none) =>
    match st with
    | some b =>
      match b.Stat p with
      | .panicked m => .val (⟨0⟩, recoverMsg m)
      | .val (fs1, none) => .val (fs1, none)
      | .val (fs1, some e1) =>
        match rt with
        | some r =>
          match r.Stat p with
          | .panicked m => .val (fs1, recoverMsg m)
          | .val (fs2, e2) => .val (fs2, e2)
        | none => .val (fs1, some e1)
    | none =>
      match rt with
      | some r =>
        match r.Stat p with
        | .panicked m => .val (⟨0⟩, recoverMsg m)
        | .val (fs2, e2) => .val (fs2, e2)
      | none => .val (⟨0⟩, none)

/-- Embedding of the newer `Store.DownloadBytes` (src/s3_test.go lines 357-380). -/
def V2.Store.DownloadBytes (s : V2.Store) (key : GoStr) : Res (Option Bytes × GoError) :=
  match s.getStoreByKey key with
  | (_, _, _, some e) => .val (none, some e)
  | (st, rt, p, none) =>
    match st with
    | some b =>
      match b.DownloadBytes p with
      | .panicked m => .val (none, recoverMsg m)
      | .val (d1, none) => .val (d1, none)
      | .val (d1, some e1) =>
        match rt with
        | some r =>
          match r.DownloadBytes p with
          | .panicked m => .val (d1, recoverMsg m)
          | .val (d2, e2) => .val (d2, e2)
        | none => .val (d1, some e1)
    | none =>
      match rt with
      | some r =>
        match r.DownloadBytes p with
        | .panicked m => .val (none, recoverMsg m)
        | .val (d2, e2) => .val (d2, e2)
      | none => .val (none, none)

/-- Embedding of the newer `Store.DownloadReader` (src/s3_test.go lines 382-406). -/
def V2.Store.DownloadReader (s : V2.Store) (key : GoStr) : Res (Option Bytes × GoError) :=
  match s.getStoreByKey key with
  | (_, _, _, some e) => .val (none, some e)
  | (st, rt, p, none) =>
    match st with
    | some b =>
      match b.DownloadReader p with
      | .panicked m => .val (none, recoverMsg m)
      | .val (d1, none) => .val (d1, none)
      | .val (d1, some e1) =>
        match rt with
        | some r =>
          match r.DownloadReader p with
          | .panicked m => .val (d1, recoverMsg m)
          | .val (d2, e2) => .val (d2, e2)
        | none => .val (d1, some e1)
    | none =>
      match rt with
      | some r =>
        match r.DownloadReader p with
        | .panicked m => .val (none, recoverMsg m)
        | .val (d2, e2) => .val (d2, e2)
      | none => .val (none, none)

/-- Embedding of the newer `Store.DownloadRangeBytes` (src/s3_test.go lines 408-431). -/
def V2.Store.DownloadRangeBytes (s : V2.Store) (key : GoStr) (offset size : Int) :
    Res (Option Bytes × GoError) :=
  match s.getStoreByKey key with
  | (_, _, _, some e) => .val (none, some e)
  | (st, rt, p, none) =>
    match st with
    | some b =>
      match b.DownloadRangeBytes p offset size with
      | .panicked m => .val (none, recoverMsg m)
      | .val (d1, none) => .val (d1, none)
      | .val (d1, some e1) =>
        match rt with
        | some r =>
          match r.DownloadRangeBytes p offset size with
          | .panicked m => .val (d1, recoverMsg m)
          | .val (d2, e2) => .val (d2, e2)
        | none => .val (d1, some e1)
    | none =>
      match rt with
      | some r =>
        match r.DownloadRangeBytes p offset size with
        | .panicked m => .val (none, recoverMsg m)
        | .val (d2, e2) => .val (d2, e2)
      | none => .val (none, none)

/-- Embedding of the newer `Store.DownloadRangeReader` (src/s3_test.go lines 433-456). -/
def V2.Store.DownloadRangeReader (s : V2.Store) (key : GoStr) (offset size : Int) :
    Res (Option Bytes × GoError) :=
  match s.getStoreByKey key with
  | (_, _, _, some e) => .val (none, some e)
  | (st, rt, p, none) =>
    match st with
    | some b =>
      match b.DownloadRangeReader p offset size with
      | .panicked m => .val (none, recoverMsg m)
      | .val (d1, none) => .val (d1, none)
      | .val (d1, some e1) =>
        match rt with
        | some r =>
          match r.DownloadRangeReader p offset size with
          | .panicked m => .val (d1, recoverMsg m)
          | .val (d2, e2) => .val (d2, e2)
        | none => .val (d1, some e1)
    | none =>
      match rt with
      | some r =>
        match r.DownloadRangeReader p offset size with
        | .panicked m => .val (none, recoverMsg m)
        | .val (d2, e2) => .val (d2, e2)
      | none => .val (none, none)

/-! ## `src/s3_multi_config.go`: the prefix config selector -/

/-- The per-prefix S3 credentials record (`S3Config`, src/unnamed/part_006). -/
structure S3Config where
  Endpoint : GoStr
  Region : GoStr
  Bucket : GoStr
  AccessKey : GoStr
  SecretKey : GoStr
  Token : GoStr
  UseSSL : Bool
deriving Repr, DecidableEq

/-- Embedding of `isKeyStartsWithPrefix` (src/s3_multi_config.go lines 54-62):
append a trailing `/` to key and prefix where missing, then compare by string
prefix. -/
def isKeyStartsWithPrefix (key pfx : GoStr) : Bool :=
  let key := if key.getLast? = some '/' then key else key ++ ['/']
  let pfx := if pfx.getLast? = some '/' then pfx else pfx ++ ['/']
  pfx.isPrefixOf key

/-- Embedding of `defaultSelectConfigCallbackFunc` (src/s3_multi_config.go
lines 64-71).  Go ranges over a map in unspecified order; the association list
fixes one iteration order. -/
def defaultSelectConfigCallbackFunc (cfgs : List (GoStr × S3Config)) (key : GoStr) :
    Option S3Config :=
  match cfgs with
  | [] => none
  | (keyPrefix, config) :: rest =>
    if isKeyStartsWithPrefix key keyPrefix then some config
    else defaultSelectConfigCallbackFunc rest key

/-- The selector state (`S3MultiStoreConfig`, src/s3_multi_config.go lines
14-19; the `sync.RWMutex` guards reads and is not part of the data). -/
structure S3MultiStoreConfig where
  path : GoStr
  selectConfig : List (GoStr × S3Config) → GoStr → Option S3Config
  cfgs : List (GoStr × S3Config)

/-- Embedding of `S3MultiStoreConfig.getStore` (src/s3_multi_config.go lines
21-31).  `NewS3Store` constructs a client from a config over the network and
is passed in as an oracle. -/
def S3MultiStoreConfig.getStore (NewS3Store : S3Config → Except GoStr Backend)
    (s : S3MultiStoreConfig) (key : GoStr) : Except GoStr Backend :=
  match s.selectConfig s.cfgs key with
  | none => .error ("no s3 configuration found for key: ".toList ++ key)
  | some cfg => NewS3Store cfg

/-! ## The Qiniu backend (`src/qiniu.go`, `src/unnamed/part_000`) -/

/-- Error text of `QiniuNotConfigError`. -/
def QiniuNotConfigError : GoStr := "qiniu is not configured".toList

/-- The slice of the Qiniu SDK downloader the embedded methods consult:
`DownloadCheck` returns the object size or an error. -/
structure QiniuDownloader where
  DownloadCheck : GoStr → Except GoStr Int

/-- The Qiniu backend state; only the downloader is consulted by the methods
embedded here. -/
structure QiniuStore where
  downloader : QiniuDownloader

/-- Embedding of `QiniuStore.Exists` (src/qiniu.go lines 102-116, identical in
src/unnamed/part_000 lines 129-143): a nil receiver reports the not-configured
error; for a non-nil receiver every failure of `DownloadCheck` is reported as
`(false, nil)`. -/
def QiniuStore.Exists (s : Option QiniuStore) (key : GoStr) : Bool × GoError :=
  match s with
  | none => (false, some QiniuNotConfigError)
  | some st =>
    match st.downloader.DownloadCheck (trimLeadSlash key) with
    | .error _ => (false, none)
    | .ok _ => (true, none)

/-! ## The S3 backend (`src/unnamed/part_006` lines 16-355)

The minio client is embedded as a record of operations over an abstract
remote-state type `σ`; the configured bucket of `cfg.Bucket` is fixed, so the
bucket argument Go threads through every call is dropped.  `bucketClient`
below interprets the operations against an association-list bucket with the
semantics of an S3 server: copy fails when the source is absent, removal of an
absent key succeeds, listing enumerates keys by string prefix. -/

/-- Error text of `S3NotConfigError`. -/
def S3NotConfigError : GoStr := "s3 store is not configured".toList

/-- The recycle prefix (src/unnamed/part_006 lines 34-36). -/
def recyclePath : GoStr := "_recycle/".toList

/-- Embedding of `makeSureKeyAsDir` (src/unnamed/part_006 lines 349-354). -/
def makeSureKeyAsDir (key : GoStr) : GoStr :=
  if key.getLast? = some '/' then key else key ++ ['/']

/-- Split a path on `/`, keeping empty segments; `acc` holds the current
segment reversed. -/
def splitSlashAux : GoStr → GoStr → List GoStr
  | [], acc => [acc.reverse]
  | c :: rest, acc =>
    if c = '/' then acc.reverse :: splitSlashAux rest []
    else splitSlashAux rest (c :: acc)

/-- The segment view of a Go path: split on `/`, empty segments kept. -/
def splitSlash (l : GoStr) : List GoStr := splitSlashAux l []

/-- A real path element: neither empty nor `.` nor `..`. -/
def realSeg (s : GoStr) : Bool := !(s == [] || s == ['.'] || s == ['.', '.'])

/-- Segment processing of Go `path.Clean`: empty and `.` elements are
dropped; a `..` pops the last real element, is dropped at the root, and in a
relative path with nothing left to pop is kept (Go's `dotdot` marker: the
output stack then starts with irreducible `..` elements, which a later `..`
never pops).  `acc` is the output stack, reversed. -/
def cleanSegs : List GoStr → Bool → List GoStr → List GoStr
  | [], _, acc => acc.reverse
  | seg :: rest, rooted, acc =>
    if seg == [] || seg == ['.'] then cleanSegs rest rooted acc
    else if seg == ['.', '.'] then
      match acc with
      | top :: acc2 =>
        if top == ['.', '.'] then cleanSegs rest rooted (seg :: top :: acc2)
        else cleanSegs rest rooted acc2
      | [] =>
        if rooted then cleanSegs rest rooted []
        else cleanSegs rest rooted [seg]
    else cleanSegs rest rooted (seg :: acc)

/-- Join segments with `/`. -/
def intercalateSlash : List GoStr → GoStr
  | [] => []
  | [s] => s
  | s :: rest => s ++ '/' :: intercalateSlash rest

/-- Go `path.Clean`: empty input becomes `.`; otherwise the segments are
normalised (rooted paths keep their leading `/`), and an empty result becomes
`.` (or stays `/` when rooted). -/
def pathClean (p : GoStr) : GoStr :=
  if p == [] then ['.']
  else
    let rooted := p.take 1 = ['/']
    let segs := cleanSegs (splitSlash p) rooted []
    let out := (if rooted then ['/'] else []) ++ intercalateSlash segs
    if out == [] then ['.'] else out

/-- Go `path.Join` at two arguments, as `S3Store` calls it: empty elements
before the first non-empty one are skipped, the rest are interleaved with `/`
and the result is cleaned; two empty arguments give the empty string. -/
def pathJoin (a b : GoStr) : GoStr :=
  if a == [] && b == [] then []
  else if a == [] then pathClean b
  else pathClean (a ++ '/' :: b)

/-- The recycle destination of an object: `path.Join(recyclePath, key)`
(src/unnamed/part_006 lines 159 and 199). -/
def recycleKey (key : GoStr) : GoStr := pathJoin recyclePath key

/-- Keys on which the recycle destination is plain concatenation under
`_recycle/`: every `/`-separated segment is a real element (non-empty, not
`.`, not `..`).  For other keys `path.Clean` rewrites the destination — e.g.
`path.Join("_recycle/", "../x") = "x"` — and deleted data does not land under
the recycle prefix. -/
def cleanKey (k : GoStr) : Bool := (splitSlash k).all realSeg

/-- The slice of the minio client the embedded methods use, over remote state
`σ`: `StatObject` reports an error for an unreachable or absent object,
`CopyObject dest src` and `RemoveObject` step the state, `ListObjects`
enumerates keys under a prefix. -/
structure MinioClient (σ : Type) where
  StatObject : σ → GoStr → GoError
  CopyObject : σ → GoStr → GoStr → σ × GoError
  RemoveObject : σ → GoStr → σ × GoError
  ListObjects : σ → GoStr → List GoStr

/-- The S3 backend state: its minio client (the parsed `cfg` adds nothing
observable beyond the fixed bucket). -/
structure S3Store (σ : Type) where
  client : MinioClient σ

/-- Embedding of `S3Store.Exists` (src/unnamed/part_006 lines 215-228): a nil
receiver reports the not-configured error; for a non-nil receiver every
failure of `StatObject` is reported as `(false, nil)`. -/
def S3Store.Exists (s : Option (S3Store σ)) (st : σ) (key : GoStr) : Bool × GoError :=
  match s with
  | none => (false, some S3NotConfigError)
  | some store =>
    match store.client.StatObject st (trimLeadSlash key) with
    | none => (true, none)
    | some _ => (false, none)

/-- Embedding of `S3Store.Delete` (src/unnamed/part_006 lines 190-212): copy
the object under the recycle prefix, return a wrapped error if the copy fails,
otherwise remove the original and return the removal's result. -/
def S3Store.Delete (s : S3Store σ) (st : σ) (key : GoStr) : σ × GoError :=
  let key := trimLeadSlash key
  match s.client.CopyObject st (recycleKey key) key with
  | (st1, some e) => (st1, some ("copy object: ".toList ++ e))
  | (st1, none) => s.client.RemoveObject st1 key

/-- Loop body of `S3Store.DeleteDirectory`: per listed object, copy under the
recycle prefix then remove, breaking on the first error. -/
def S3Store.deleteDirLoop (s : S3Store σ) : σ → List GoStr → σ × GoError
  | st, [] => (st, none)
  | st, k :: rest =>
    match s.client.CopyObject st (recycleKey k) k with
    | (st1, some e) => (st1, some e)
    | (st1, none) =>
      match s.client.RemoveObject st1 k with
      | (st2, some e) => (st2, some e)
      | (st2, none) => s.deleteDirLoop st2 rest

/-- Embedding of `S3Store.DeleteDirectory` (src/unnamed/part_006 lines
142-186): list the objects under the directory prefix and soft-delete each.
The streamed listing is modelled as a snapshot taken at entry. -/
def S3Store.DeleteDirectory (s : S3Store σ) (st : σ) (dir : GoStr) : σ × GoError :=
  let dir := makeSureKeyAsDir (trimLeadSlash dir)
  s.deleteDirLoop st (s.client.ListObjects st dir)

/-! ### An S3 bucket semantics for the minio client -/

/-- Contents of the configured bucket: an association list from object key to
data, earliest binding visible. -/
abbrev BucketState := List (GoStr × Bytes)

/-- Object lookup. -/
def lookupObj (b : BucketState) (key : GoStr) : Option Bytes :=
  match b with
  | [] => none
  | (k, v) :: rest => if k = key then some v else lookupObj rest key

/-- Remove every binding of `key`. -/
def eraseObj (b : BucketState) (key : GoStr) : BucketState :=
  b.filter fun kv => decide (kv.1 ≠ key)

/-- Store `v` at `key`, replacing any previous binding. -/
def putObj (b : BucketState) (key : GoStr) (v : Bytes) : BucketState :=
  (key, v) :: eraseObj b key

/-- S3 error text for a missing object. -/
def noSuchKeyErr : GoStr := "The specified key does not exist.".toList

/-- The minio client interpreted against a reachable in-memory bucket. -/
def bucketClient : MinioClient BucketState where
  StatObject := fun b key =>
    match lookupObj b key with
    | none => some noSuchKeyErr
    | some _ => none
  CopyObject := fun b dest src =>
    match lookupObj b src with
    | none => (b, some noSuchKeyErr)
    | some v => (putObj b dest v, none)
  RemoveObject := fun b key => (eraseObj b key, none)
  ListObjects := fun b pfx => (b.filter fun kv => pfx.isPrefixOf kv.1).map (·.1)

/-- The S3 backend running against the in-memory bucket semantics. -/
def bucketS3Store : S3Store BucketState := ⟨bucketClient⟩

/-! ## Auxiliary definitions for the statements -/

/-- Whether a `Res` is an ordinary (non-panic) outcome. -/
def Res.isVal : Res α → Bool
  | .val _ => true
  | .panicked _ => false

/-- Characters inside which the `net/url` model is exact and which occur in
ordinary object keys and host names: ASCII letters, digits, `/`, `.`, `-`,
`_`.  Universally quantified claims about the classifier range over strings of
such characters; every delimiter `url.Parse` reacts to (`:`, `?`, `#`, `%`,
`@`, `[`, `*`, control bytes) is outside the set. -/
def urlSafeChar (c : Char) : Bool :=
  ('a' ≤ c && c ≤ 'z') || ('A' ≤ c && c ≤ 'Z') || ('0' ≤ c && c ≤ '9') ||
    c == '/' || c == '.' || c == '-' || c == '_'

/-- A string Go's `getScheme` accepts as a scheme: a letter followed by
letters, digits, `+`, `-`, `.`. -/
def schemeShaped : GoStr → Bool
  | [] => false
  | c :: rest => schemeAlpha c && rest.all schemeRest

/-- A backend whose every operation returns the error `msg`. -/
def failingBackend (msg : GoStr) : Backend where
  Stat := fun _ => .val (⟨0⟩, some msg)
  UploadData := fun _ _ => .val (some msg)
  Upload := fun _ _ => .val (some msg)
  UploadReader := fun _ _ _ => .val (some msg)
  DeleteDirectory := fun _ => .val (some msg)
  Delete := fun _ => .val (some msg)
  Exists := fun _ => .val (false, some msg)
  DownloadBytes := fun _ => .val (none, some msg)
  DownloadReader := fun _ => .val (none, some msg)
  DownloadRangeBytes := fun _ _ _ => .val (none, some msg)
  DownloadRangeReader := fun _ _ _ => .val (none, some msg)
  ListPrefix := fun _ => .val (none, some msg)

/-- A backend whose every operation succeeds, downloads returning `data`. -/
def okBackend (data : Bytes) : Backend where
  Stat := fun _ => .val (⟨(data.length : Int)⟩, none)
  UploadData := fun _ _ => .val none
  Upload := fun _ _ => .val none
  UploadReader := fun _ _ _ => .val none
  DeleteDirectory := fun _ => .val none
  Delete := fun _ => .val none
  Exists := fun _ => .val (true, none)
  DownloadBytes := fun _ => .val (some data, none)
  DownloadReader := fun _ => .val (some data, none)
  DownloadRangeBytes := fun _ _ _ => .val (some data, none)
  DownloadRangeReader := fun _ _ _ => .val (some data, none)
  ListPrefix := fun _ => .val (some ["k".toList], none)

/-- A backend whose every operation panics with message `msg`. -/
def panickyBackend (msg : GoStr) : Backend where
  Stat := fun _ => .panicked msg
  UploadData := fun _ _ => .panicked msg
  Upload := fun _ _ => .panicked msg
  UploadReader := fun _ _ _ => .panicked msg
  DeleteDirectory := fun _ => .panicked msg
  Delete := fun _ => .panicked msg
  Exists := fun _ => .panicked msg
  DownloadBytes := fun _ => .panicked msg
  DownloadReader := fun _ => .panicked msg
  DownloadRangeBytes := fun _ _ _ => .panicked msg
  DownloadRangeReader := fun _ _ _ => .panicked msg
  ListPrefix := fun _ => .panicked msg

/-- A V1 store whose qiniu primary fails every read and whose qiniu reader
answers every read successfully. -/
def c1Store : V1.Store where
  osStore := none
  qiniuStore := some (failingBackend "primary error".toList)
  qiniuReaderStore := some (okBackend [7])
  s3Store := none
  s3ReaderStore := none

/-- A V1 store whose qiniu primary fails every write while a healthy qiniu
reader is configured. -/
def c2Store : V1.Store where
  osStore := none
  qiniuStore := some (failingBackend "write failed".toList)
  qiniuReaderStore := some (okBackend [7])
  s3Store := none
  s3ReaderStore := none

/-- A V2 store with no backend configured for any protocol. -/
def c3Store : V2.Store where
  osStore := none
  qiniuStore := none
  qiniuReaderStore := none
  s3Store := none
  s3ReaderStore := none

/-- A V2 store whose qiniu primary panics on every operation. -/
def c8Store : V2.Store where
  osStore := none
  qiniuStore := some (panickyBackend "boom".toList)
  qiniuReaderStore := none
  s3Store := none
  s3ReaderStore := none

/-- A Qiniu store whose downloader is unreachable: every check fails. -/
def c9QiniuStore : QiniuStore where
  downloader := ⟨fun _ => .error "connection refused".toList⟩

/-- A concrete multi-tenant S3 config record. -/
def c7Cfg : S3Config where
  Endpoint := "localhost:9000".toList
  Region := "us-east-1".toList
  Bucket := "bucket1".toList
  AccessKey := "key1".toList
  SecretKey := "secret1".toList
  Token := []
  UseSSL := false

/-- A selector table holding the single prefix `prefix1`. -/
def c7Table : S3MultiStoreConfig where
  path := "config.json".toList
  selectConfig := defaultSelectConfigCallbackFunc
  cfgs := [("prefix1".toList, c7Cfg)]

/-! ## Lemmas about the modelled `net/url` parser -/

theorem urlSafe_not_mem {l : GoStr} {c : Char} (hl : l.all urlSafeChar = true)
    (hc : urlSafeChar c = false) : c ∉ l := by
  intro hm
  have := List.all_eq_true.mp hl c hm
  rw [hc] at this
  cases this

theorem urlSafe_ranges {c : Char} (h : urlSafeChar c = true) :
    ('a' ≤ c ∧ c ≤ 'z') ∨ ('A' ≤ c ∧ c ≤ 'Z') ∨ ('0' ≤ c ∧ c ≤ '9') ∨
      c = '/' ∨ c = '.' ∨ c = '-' ∨ c = '_' := by
  simp only [urlSafeChar, Bool.or_eq_true, Bool.and_eq_true, decide_eq_true_eq,
    beq_iff_eq] at h
  tauto

theorem urlSafe_ctl {c : Char} (h : urlSafeChar c = true) : ctlChar c = false := by
  have hr := urlSafe_ranges h
  simp only [ctlChar, Bool.or_eq_false_iff, decide_eq_false_iff_not]
  constructor
  · intro hlt
    rcases hr with ⟨h1, _⟩ | ⟨h1, _⟩ | ⟨h1, _⟩ | rfl | rfl | rfl | rfl
    · exact absurd (le_trans h1 hlt.le) (by decide)
    · exact absurd (le_trans h1 hlt.le) (by decide)
    · exact absurd (le_trans h1 hlt.le) (by decide)
    · exact absurd hlt (by decide)
    · exact absurd hlt (by decide)
    · exact absurd hlt (by decide)
    · exact absurd hlt (by decide)
  · intro he
    rcases hr with ⟨_, h2⟩ | ⟨_, h2⟩ | ⟨_, h2⟩ | rfl | rfl | rfl | rfl <;>
      first
      | (rw [he] at h2; exact absurd h2 (by decide))
      | (cases he)

theorem urlSafe_any_ctl {l : GoStr} (h : l.all urlSafeChar = true) :
    l.any ctlChar = false := by
  rw [List.any_eq_false]
  intro c hc
  simp only [Bool.not_eq_true]
  exact urlSafe_ctl (List.all_eq_true.mp h c hc)

theorem cutChar_not_mem {sep : Char} : ∀ {l : GoStr}, sep ∉ l → cutChar sep l = none
  | [], _ => rfl
  | c :: rest, h => by
    have h1 : ¬ (c = sep) := fun he => h (he ▸ List.mem_cons_self c rest)
    have h2 : sep ∉ rest := fun hm => h (List.mem_cons_of_mem c hm)
    simp [cutChar, h1, cutChar_not_mem h2]

theorem cutChar_append {sep : Char} :
    ∀ {pre : GoStr}, sep ∉ pre → ∀ post : GoStr, cutChar sep (pre ++ sep :: post) = some (pre, post)
  | [], _, post => by simp [cutChar]
  | c :: rest, h, post => by
    have h1 : ¬ (c = sep) := fun he => h (he ▸ List.mem_cons_self c rest)
    have h2 : sep ∉ rest := fun hm => h (List.mem_cons_of_mem c hm)
    simp [cutChar, h1, cutChar_append h2 post]

theorem cutLastChar_not_mem {sep : Char} : ∀ {l : GoStr}, sep ∉ l → cutLastChar sep l = none
  | [], _ => rfl
  | c :: rest, h => by
    have h1 : ¬ (c = sep) := fun he => h (he ▸ List.mem_cons_self c rest)
    have h2 : sep ∉ rest := fun hm => h (List.mem_cons_of_mem c hm)
    simp [cutLastChar, h1, cutLastChar_not_mem h2]

theorem contains_false {l : GoStr} {c : Char} (h : c ∉ l) : l.contains c = false := by
  simpa [List.contains] using h

theorem stripQuery_id {l : GoStr} (h : '?' ∉ l) : stripQuery l = l := by
  have h1 : ¬ (l.getLast? = some '?') := by
    intro he
    exact h (List.mem_of_mem_getLast? (by simp [he]))
  simp [stripQuery, h1, cutChar_not_mem h]

theorem setPath_id {l : GoStr} (h : '%' ∉ l) : setPath l = .ok l := by
  simpa [setPath] using h

theorem parseHost_plain {h : GoStr} (hhead : h.take 1 ≠ ['['])
    (hcolon : ':' ∉ h) (hpct : '%' ∉ h) : parseHost h = .ok h := by
  have hcut := cutLastChar_not_mem hcolon
  simp only [parseHost, hhead, if_false, hcut]
  simpa using hpct

theorem getSchemeLoop_colon :
    ∀ (l : GoStr), l.all schemeRest = true → ∀ (acc rest : GoStr),
      getSchemeLoop (l ++ ':' :: rest) acc = .found (acc.reverse ++ l) rest
  | [], _, acc, rest => by simp [getSchemeLoop]
  | c :: l, hall, acc, rest => by
    have hc : schemeRest c = true := (List.all_eq_true.mp hall c (List.mem_cons_self c l))
    have hl : l.all schemeRest = true :=
      List.all_eq_true.mpr fun x hx => List.all_eq_true.mp hall x (List.mem_cons_of_mem c hx)
    have hcol : ¬ (c = ':') := by
      intro he; rw [he] at hc; exact absurd hc (by decide)
    simp [getSchemeLoop, hcol, hc, getSchemeLoop_colon l hl (c :: acc) rest,
      List.append_assoc]

theorem getScheme_shaped {sch : GoStr} (h : schemeShaped sch = true) (rest : GoStr) :
    getScheme (sch ++ ':' :: rest) = .found sch rest := by
  match sch, h with
  | c :: l, h =>
    simp only [schemeShaped, Bool.and_eq_true] at h
    have hcol : ¬ (c = ':') := by
      intro he; rw [he] at h; exact absurd h.1 (by decide)
    simp [getScheme, hcol, h.1, getSchemeLoop_colon l h.2 [c] rest]

theorem getSchemeLoop_no_colon :
    ∀ {l : GoStr}, ':' ∉ l → ∀ acc, getSchemeLoop l acc = .noScheme
  | [], _, _ => rfl
  | c :: rest, h, acc => by
    have h1 : ¬ (c = ':') := fun he => h (he ▸ List.mem_cons_self c rest)
    have h2 : ':' ∉ rest := fun hm => h (List.mem_cons_of_mem c hm)
    by_cases hc : schemeRest c = true
    · simp [getSchemeLoop, h1, hc, getSchemeLoop_no_colon h2]
    · simp [getSchemeLoop, h1, hc]

theorem getScheme_no_colon : ∀ {l : GoStr}, ':' ∉ l → getScheme l = .noScheme
  | [], _ => rfl
  | c :: rest, h => by
    have h1 : ¬ (c = ':') := fun he => h (he ▸ List.mem_cons_self c rest)
    have h2 : ':' ∉ rest := fun hm => h (List.mem_cons_of_mem c hm)
    by_cases hc : schemeAlpha c = true
    · simp [getScheme, h1, hc, getSchemeLoop_no_colon h2]
    · simp [getScheme, h1, hc]

theorem not_mem_concat {c : Char} {pre k : GoStr} (h1 : c ∉ pre) (h2 : c ∉ k) :
    c ∉ pre ++ k := fun hm => (List.mem_append.mp hm).elim h1 h2

theorem not_mem_cons {c d : Char} {l : GoStr} (h1 : c ≠ d) (h2 : c ∉ l) :
    c ∉ d :: l := by simp [List.mem_cons, h1, h2]

theorem schemeShaped_all {sch : GoStr} (h : schemeShaped sch = true) :
    sch.all schemeRest = true := by
  match sch, h with
  | c :: rest, h =>
    simp only [schemeShaped, Bool.and_eq_true] at h
    refine List.all_eq_true.mpr ?_
    intro x hx
    rcases List.mem_cons.mp hx with rfl | hx
    · simp [schemeRest, h.1]
    · exact List.all_eq_true.mp h.2 x hx

theorem scheme_not_mem {sch : GoStr} (hs : schemeShaped sch = true) {c : Char}
    (hbad : schemeRest c = false) : c ∉ sch := fun hm => by
  have := List.all_eq_true.mp (schemeShaped_all hs) c hm
  rw [hbad] at this
  cases this

theorem schemeRest_ctl {c : Char} (h : schemeRest c = true) : ctlChar c = false := by
  have hr : ('a' ≤ c ∧ c ≤ 'z') ∨ ('A' ≤ c ∧ c ≤ 'Z') ∨ ('0' ≤ c ∧ c ≤ '9') ∨
      c = '+' ∨ c = '-' ∨ c = '.' := by
    simp only [schemeRest, schemeAlpha, Bool.or_eq_true, Bool.and_eq_true,
      decide_eq_true_eq] at h
    tauto
  simp only [ctlChar, Bool.or_eq_false_iff, decide_eq_false_iff_not]
  constructor
  · intro hlt
    rcases hr with ⟨h1, _⟩ | ⟨h1, _⟩ | ⟨h1, _⟩ | rfl | rfl | rfl
    · exact absurd (le_trans h1 hlt.le) (by decide)
    · exact absurd (le_trans h1 hlt.le) (by decide)
    · exact absurd (le_trans h1 hlt.le) (by decide)
    · exact absurd hlt (by decide)
    · exact absurd hlt (by decide)
    · exact absurd hlt (by decide)
  · intro he
    rcases hr with ⟨_, h2⟩ | ⟨_, h2⟩ | ⟨_, h2⟩ | rfl | rfl | rfl <;>
      first
      | (rw [he] at h2; exact absurd h2 (by decide))
      | (cases he)

theorem scheme_any_ctl {sch : GoStr} (hs : schemeShaped sch = true) :
    sch.any ctlChar = false := by
  rw [List.any_eq_false]
  intro c hc
  simp only [Bool.not_eq_true]
  exact schemeRest_ctl (List.all_eq_true.mp (schemeShaped_all hs) c hc)

/-- Classification of `<scheme>:/<key>` for the two supported schemes and a
key in the modelled character set that does not itself begin with a slash. -/
theorem getPathProtocol_supported_one_slash {sch k : GoStr}
    (hsch : sch = "qiniu".toList ∨ sch = "s3".toList)
    (hk : k.all urlSafeChar = true) (hk0 : k.take 1 ≠ ['/']) :
    GetPathProtocol (sch ++ ':' :: '/' :: k) = (sch, k, none) := by
  have hq : '?' ∉ k := urlSafe_not_mem hk (by decide)
  have hhash : '#' ∉ k := urlSafe_not_mem hk (by decide)
  have hpct : '%' ∉ k := urlSafe_not_mem hk (by decide)
  have hctl : k.any ctlChar = false := urlSafe_any_ctl hk
  have hshape : schemeShaped sch = true := by rcases hsch with rfl | rfl <;> decide
  have hlow : lowerStr sch = sch := by rcases hsch with rfl | rfl <;> decide
  have hsnm : '#' ∉ sch := by rcases hsch with rfl | rfl <;> decide
  have hcut : cutChar '#' (sch ++ ':' :: '/' :: k) = none :=
    cutChar_not_mem (not_mem_concat hsnm
      (not_mem_cons (by decide) (not_mem_cons (by decide) hhash)))
  have hsctl : sch.any ctlChar = false := scheme_any_ctl hshape
  have hany : (sch ++ ':' :: '/' :: k).any ctlChar = false := by
    simp [List.any_append, List.any_cons, hsctl, hctl, ctlChar]
  have hscheme := getScheme_shaped hshape ('/' :: k)
  have hstrip : stripQuery ('/' :: k) = '/' :: k :=
    stripQuery_id (not_mem_cons (by decide) hq)
  have hsp : setPath ('/' :: k) = .ok ('/' :: k) :=
    setPath_id (not_mem_cons (by decide) hpct)
  have hne : sch ≠ [] := by rcases hsch with rfl | rfl <;> decide
  have hstar : ¬ (sch ++ ':' :: '/' :: k = ['*']) := by
    rcases hsch with rfl | rfl <;> simp
  have htake2 : (('/' :: List.take 1 k) == ['/', '/']) = false := by
    cases k with
    | nil => decide
    | cons c rest =>
      have hc : ¬ (c = '/') := fun he => hk0 (by simp [List.take, he])
      simp [List.take, hc]
  have hbody : urlParseBody (sch ++ ':' :: '/' :: k) = .ok ⟨sch, [], [], '/' :: k⟩ := by
    rw [urlParseBody, hany, if_neg hstar, hscheme]
    simp only [hstrip, hlow, parseAfterScheme, List.take, beq_self_eq_true, Bool.not_true,
      Bool.false_and, Bool.and_false, if_false, htake2, hsp, Bool.false_eq_true]
  rw [GetPathProtocol, urlParse, hcut, hbody]
  have hqs : ¬ (('/' :: k) = ([] : GoStr)) := by simp
  rcases hsch with rfl | rfl <;>
    simp [hqs, QiniuProtocol, S3Protocol, OSProtocol, trimLeadSlash]

/-- Classification of `<scheme>:///<key>` for the two supported schemes:
the empty authority is parsed and the key classifies as with one slash. -/
theorem getPathProtocol_supported_three_slash {sch k : GoStr}
    (hsch : sch = "qiniu".toList ∨ sch = "s3".toList)
    (hk : k.all urlSafeChar = true) :
    GetPathProtocol (sch ++ ':' :: '/' :: '/' :: '/' :: k) = (sch, k, none) := by
  have hq : '?' ∉ k := urlSafe_not_mem hk (by decide)
  have hhash : '#' ∉ k := urlSafe_not_mem hk (by decide)
  have hpct : '%' ∉ k := urlSafe_not_mem hk (by decide)
  have hctl : k.any ctlChar = false := urlSafe_any_ctl hk
  have hshape : schemeShaped sch = true := by rcases hsch with rfl | rfl <;> decide
  have hlow : lowerStr sch = sch := by rcases hsch with rfl | rfl <;> decide
  have hsnm : '#' ∉ sch := by rcases hsch with rfl | rfl <;> decide
  have hcut : cutChar '#' (sch ++ ':' :: '/' :: '/' :: '/' :: k) = none :=
    cutChar_not_mem (not_mem_concat hsnm (not_mem_cons (by decide) (not_mem_cons (by decide)
      (not_mem_cons (by decide) (not_mem_cons (by decide) hhash)))))
  have hsctl : sch.any ctlChar = false := scheme_any_ctl hshape
  have hany : (sch ++ ':' :: '/' :: '/' :: '/' :: k).any ctlChar = false := by
    simp [List.any_append, List.any_cons, hsctl, hctl, ctlChar]
  have hscheme := getScheme_shaped hshape ('/' :: '/' :: '/' :: k)
  have hstrip : stripQuery ('/' :: '/' :: '/' :: k) = '/' :: '/' :: '/' :: k :=
    stripQuery_id (not_mem_cons (by decide) (not_mem_cons (by decide)
      (not_mem_cons (by decide) hq)))
  have hsp : setPath ('/' :: k) = .ok ('/' :: k) :=
    setPath_id (not_mem_cons (by decide) hpct)
  have hstar : ¬ (sch ++ ':' :: '/' :: '/' :: '/' :: k = ['*']) := by
    rcases hsch with rfl | rfl <;> simp
  have hsplit : cutChar '/' ('/' :: k) = some ([], k) := by simp [cutChar]
  have hschne : (sch == ([] : GoStr)) = false := by rcases hsch with rfl | rfl <;> decide
  have hbody : urlParseBody (sch ++ ':' :: '/' :: '/' :: '/' :: k) =
      .ok ⟨sch, [], [], '/' :: k⟩ := by
    rw [urlParseBody, hany, if_neg hstar, hscheme]
    simp only [hstrip, hlow, parseAfterScheme, List.take, List.drop,
      beq_self_eq_true, Bool.not_true, Bool.false_and, Bool.and_false,
      Bool.and_true, Bool.true_and, Bool.or_true, if_false, Bool.false_eq_true,
      if_true, parseAuthorityAndPath, hsplit, parseAuthority, cutLastChar,
      parseHost, hsp, hschne, Bool.not_false, Bool.true_or]
    simp [List.take]
  rw [GetPathProtocol, urlParse, hcut, hbody]
  have hqs : ¬ (('/' :: k) = ([] : GoStr)) := by simp
  rcases hsch with rfl | rfl <;>
    simp [hqs, QiniuProtocol, S3Protocol, OSProtocol, trimLeadSlash]

theorem cutChar_some_eq {sep : Char} {l : GoStr} :
    ∀ {pre post : GoStr}, cutChar sep l = some (pre, post) → l = pre ++ sep :: post := by
  induction l with
  | nil => intro pre post h; cases h
  | cons c rest ih =>
    intro pre post h
    rw [cutChar] at h
    by_cases hc : c = sep
    · rw [if_pos hc] at h
      injection h with h
      obtain ⟨h1, h2⟩ := Prod.mk.injEq .. ▸ h
      rw [← h1, ← h2, hc]
      rfl
    · rw [if_neg hc] at h
      cases he : cutChar sep rest with
      | none => rw [he] at h; cases h
      | some pq =>
        obtain ⟨p, q⟩ := pq
        rw [he] at h
        injection h with h
        obtain ⟨h1, h2⟩ := Prod.mk.injEq .. ▸ h
        rw [← h1, ← h2, List.cons_append, ← ih he]

/-- Classification of a non-empty relative path over the modelled character
set: an error, the unknown tag, and the path returned unchanged. -/
theorem getPathProtocol_relative {p : GoStr} (hp : p ≠ [])
    (hsafe : p.all urlSafeChar = true) (h0 : p.take 1 ≠ ['/']) :
    GetPathProtocol p = (UnknownPathProtocol, p, some ("unsupported path: ".toList ++ p)) := by
  have hq : '?' ∉ p := urlSafe_not_mem hsafe (by decide)
  have hhash : '#' ∉ p := urlSafe_not_mem hsafe (by decide)
  have hpct : '%' ∉ p := urlSafe_not_mem hsafe (by decide)
  have hcolon : ':' ∉ p := urlSafe_not_mem hsafe (by decide)
  have hctl := urlSafe_any_ctl hsafe
  have hcut : cutChar '#' p = none := cutChar_not_mem hhash
  have hstar : ¬ (p = ['*']) := by
    intro he; rw [he] at hsafe; exact absurd hsafe (by decide)
  have hscheme := getScheme_no_colon hcolon
  have hstrip := stripQuery_id hq
  have hsp := setPath_id hpct
  have hseg : (firstSegment p).contains ':' = false := by
    rw [firstSegment]
    cases he : cutChar '/' p with
    | none => exact contains_false hcolon
    | some pq =>
      obtain ⟨pre, post⟩ := pq
      have := cutChar_some_eq he
      refine contains_false fun hm => hcolon ?_
      rw [this]
      exact List.mem_append.mpr (.inl hm)
  obtain ⟨c, rest, rfl⟩ : ∃ c rest, p = c :: rest := by
    cases p with
    | nil => exact absurd rfl hp
    | cons c r => exact ⟨c, r, rfl⟩
  have hc : ¬ (c = '/') := fun he => h0 (by simp [List.take, he])
  have htake1 : ((c :: rest).take 1 == ['/']) = false := by simp [List.take, hc]
  have htake2 : ((c :: List.take 1 rest) == ['/', '/']) = false := by simp [hc]
  have hbody : urlParseBody (c :: rest) = .ok ⟨[], [], [], c :: rest⟩ := by
    rw [urlParseBody, hctl, if_neg hstar, hscheme]
    simp only [hstrip, parseAfterScheme, List.take, htake1, hseg, htake2,
      beq_self_eq_true, Bool.not_true, Bool.and_false, Bool.false_and,
      Bool.and_true, Bool.true_and, Bool.not_false, Bool.false_or,
      Bool.false_eq_true, if_false, hsp]
  rw [GetPathProtocol, urlParse, hcut, hbody]
  have hqs : ¬ ((c :: rest) = ([] : GoStr)) := by simp
  have hq1 : ¬ (([] : GoStr) = QiniuProtocol) := by decide
  have hq2 : ¬ (([] : GoStr) = S3Protocol) := by decide
  have htk : ¬ ((c :: rest).take 1 = ['/']) := by simp [List.take, hc]
  simp [hqs, hq1, hq2, OSProtocol, htk, hc]

/-- Classification of `<scheme>://<host>/<key>` for any scheme-shaped scheme
and non-empty slash-free host over the modelled character set: a network-path
error with the unknown tag. -/
theorem getPathProtocol_hosted {sch hs k : GoStr} (hshape : schemeShaped sch = true)
    (hh : hs ≠ []) (hhsafe : hs.all urlSafeChar = true) (hslash : '/' ∉ hs)
    (hksafe : k.all urlSafeChar = true) :
    GetPathProtocol (sch ++ ':' :: '/' :: '/' :: (hs ++ '/' :: k)) =
      (UnknownPathProtocol, k,
        some ("unsupported network path: ".toList ++
          (sch ++ ':' :: '/' :: '/' :: (hs ++ '/' :: k)))) := by
  have hkq : '?' ∉ k := urlSafe_not_mem hksafe (by decide)
  have hkhash : '#' ∉ k := urlSafe_not_mem hksafe (by decide)
  have hkpct : '%' ∉ k := urlSafe_not_mem hksafe (by decide)
  have hhq : '?' ∉ hs := urlSafe_not_mem hhsafe (by decide)
  have hhhash : '#' ∉ hs := urlSafe_not_mem hhsafe (by decide)
  have hhpct : '%' ∉ hs := urlSafe_not_mem hhsafe (by decide)
  have hhcolon : ':' ∉ hs := urlSafe_not_mem hhsafe (by decide)
  have hhat : '@' ∉ hs := urlSafe_not_mem hhsafe (by decide)
  have hsnm : '#' ∉ sch := scheme_not_mem hshape (by decide)
  have hcut : cutChar '#' (sch ++ ':' :: '/' :: '/' :: (hs ++ '/' :: k)) = none :=
    cutChar_not_mem (not_mem_concat hsnm (not_mem_cons (by decide) (not_mem_cons (by decide)
      (not_mem_cons (by decide) (not_mem_concat hhhash (not_mem_cons (by decide) hkhash))))))
  have hany : (sch ++ ':' :: '/' :: '/' :: (hs ++ '/' :: k)).any ctlChar = false := by
    simp [List.any_append, List.any_cons, scheme_any_ctl hshape,
      urlSafe_any_ctl hhsafe, urlSafe_any_ctl hksafe, ctlChar]
  have hscheme := getScheme_shaped hshape ('/' :: '/' :: (hs ++ '/' :: k))
  have hstrip : stripQuery ('/' :: '/' :: (hs ++ '/' :: k)) = '/' :: '/' :: (hs ++ '/' :: k) :=
    stripQuery_id (not_mem_cons (by decide) (not_mem_cons (by decide)
      (not_mem_concat hhq (not_mem_cons (by decide) hkq))))
  have hsp : setPath ('/' :: k) = .ok ('/' :: k) :=
    setPath_id (not_mem_cons (by decide) hkpct)
  have hstar : ¬ (sch ++ ':' :: '/' :: '/' :: (hs ++ '/' :: k) = ['*']) := by
    match sch, hshape with
    | c :: r, _ => simp
  have hlowne : (lowerStr sch == ([] : GoStr)) = false := by
    match sch, hshape with
    | c :: r, _ => simp [lowerStr]
  have hsplit : cutChar '/' (hs ++ '/' :: k) = some (hs, k) := cutChar_append hslash k
  have hhost : parseHost hs = .ok hs := by
    refine parseHost_plain ?_ hhcolon hhpct
    match hs, hh with
    | c :: r, _ =>
      have hc : urlSafeChar c = true := List.all_eq_true.mp hhsafe c (List.mem_cons_self c r)
      have : ¬ (c = '[') := by
        intro he; rw [he] at hc; exact absurd hc (by decide)
      simp [List.take, this]
  have hauth : parseAuthority hs = .ok hs := by
    rw [parseAuthority, cutLastChar_not_mem hhat, hhost]
  have hbody : urlParseBody (sch ++ ':' :: '/' :: '/' :: (hs ++ '/' :: k)) =
      .ok ⟨lowerStr sch, [], hs, '/' :: k⟩ := by
    rw [urlParseBody, hany, if_neg hstar, hscheme]
    simp only [hstrip, parseAfterScheme, List.take, List.drop, beq_self_eq_true,
      Bool.not_true, Bool.false_and, Bool.and_false, Bool.true_and, Bool.and_true,
      hlowne, Bool.not_false, Bool.true_or, Bool.false_eq_true, if_false, if_true,
      parseAuthorityAndPath, hsplit, hauth, hsp]
  rw [GetPathProtocol, urlParse, hcut, hbody]
  have hqs : ¬ (('/' :: k) = ([] : GoStr)) := by simp
  simp [hqs, hh, trimLeadSlash]

/-! ## Lemmas about the bucket semantics and the prefix selector -/

theorem lookupObj_erase_self : ∀ (b : BucketState) (k : GoStr),
    lookupObj (eraseObj b k) k = none
  | [], _ => rfl
  | (k1, v1) :: rest, k => by
    show lookupObj (List.filter _ ((k1, v1) :: rest)) k = none
    by_cases h : k1 = k
    · rw [List.filter_cons, if_neg (by simp [h])]
      exact lookupObj_erase_self rest k
    · rw [List.filter_cons, if_pos (by simp [h])]
      simp only [lookupObj, h, if_false]
      exact lookupObj_erase_self rest k

theorem lookupObj_erase_ne : ∀ (b : BucketState) {k k' : GoStr}, k' ≠ k →
    lookupObj (eraseObj b k) k' = lookupObj b k'
  | [], _, _, _ => rfl
  | (k1, v1) :: rest, k, k', h => by
    show lookupObj (List.filter _ ((k1, v1) :: rest)) k' = _
    by_cases he : k1 = k
    · rw [List.filter_cons, if_neg (by simp [he])]
      rw [show List.filter (fun kv => decide (kv.1 ≠ k)) rest = eraseObj rest k from rfl,
        lookupObj_erase_ne rest h]
      simp only [lookupObj]
      rw [if_neg (fun hh : k1 = k' => h (hh ▸ he))]
    · rw [List.filter_cons, if_pos (by simp [he])]
      by_cases hk : k1 = k'
      · simp only [lookupObj, hk, if_true, if_pos rfl]
      · simp only [lookupObj, hk, if_false]
        exact lookupObj_erase_ne rest h

theorem lookupObj_put_self (b : BucketState) (k : GoStr) (v : Bytes) :
    lookupObj (putObj b k v) k = some v := by
  simp [putObj, lookupObj]

theorem lookupObj_put_ne (b : BucketState) {k k' : GoStr} (h : k' ≠ k) (v : Bytes) :
    lookupObj (putObj b k v) k' = lookupObj b k' := by
  simp only [putObj, lookupObj, show ¬ (k = k') from fun hh => h hh.symm, if_false]
  exact lookupObj_erase_ne b h

theorem lookupObj_mem : ∀ {b : BucketState} {k : GoStr} {v : Bytes},
    (k, v) ∈ b → lookupObj b k ≠ none
  | [], _, _, h => by cases h
  | (k1, v1) :: rest, k, v, h => by
    by_cases he : k1 = k
    · simp [lookupObj, he]
    · rcases List.mem_cons.mp h with hh | hh
      · cases hh; exact absurd rfl he
      · simp only [lookupObj, he, if_false]
        exact lookupObj_mem hh

theorem recycleConcat_ne (k : GoStr) : recyclePath ++ k ≠ k := by
  intro h
  have := congrArg List.length h
  simp [recyclePath, List.length_append] at this
  omega

theorem recyclePath_isPrefixOf_concat (k : GoStr) :
    recyclePath.isPrefixOf (recyclePath ++ k) = true := by
  simp [List.isPrefixOf_iff_prefix]

theorem splitSlashAux_ne_nil : ∀ (l acc : GoStr), splitSlashAux l acc ≠ []
  | [], acc => by simp [splitSlashAux]
  | c :: rest, acc => by
    by_cases hc : c = '/'
    · simp [splitSlashAux, hc]
    · simp only [splitSlashAux, hc, if_false]
      exact splitSlashAux_ne_nil rest (c :: acc)

theorem intercalateSlash_cons (s : GoStr) {X : List GoStr} (h : X ≠ []) :
    intercalateSlash (s :: X) = s ++ '/' :: intercalateSlash X := by
  cases X with
  | nil => exact absurd rfl h
  | cons t rest => rfl

theorem intercalateSlash_splitSlashAux : ∀ (l acc : GoStr),
    intercalateSlash (splitSlashAux l acc) = acc.reverse ++ l
  | [], acc => by simp [splitSlashAux, intercalateSlash]
  | c :: rest, acc => by
    by_cases hc : c = '/'
    · rw [splitSlashAux]
      rw [if_pos hc, intercalateSlash_cons _ (splitSlashAux_ne_nil rest []),
        intercalateSlash_splitSlashAux rest []]
      simp [hc]
    · rw [splitSlashAux]
      rw [if_neg hc, intercalateSlash_splitSlashAux rest (c :: acc)]
      simp

theorem intercalateSlash_splitSlash (l : GoStr) :
    intercalateSlash (splitSlash l) = l := by
  simpa using intercalateSlash_splitSlashAux l []

theorem splitSlashAux_append {pre : GoStr} (h : '/' ∉ pre) :
    ∀ (rest acc : GoStr),
      splitSlashAux (pre ++ '/' :: rest) acc = (acc.reverse ++ pre) :: splitSlash rest := by
  induction pre with
  | nil =>
    intro rest acc
    simp [splitSlashAux, splitSlash]
  | cons c pre ih =>
    intro rest acc
    have hc : ¬ (c = '/') := fun he => h (he ▸ List.mem_cons_self c pre)
    have h2 : '/' ∉ pre := fun hm => h (List.mem_cons_of_mem c hm)
    rw [List.cons_append, splitSlashAux]
    rw [if_neg hc, ih h2 rest (c :: acc)]
    simp

theorem cleanSegs_all_real : ∀ {segs : List GoStr}, segs.all realSeg = true →
    ∀ (rooted : Bool) (acc : List GoStr), cleanSegs segs rooted acc = acc.reverse ++ segs
  | [], _, rooted, acc => by simp [cleanSegs]
  | seg :: rest, h, rooted, acc => by
    have h1 : realSeg seg = true := List.all_eq_true.mp h seg (List.mem_cons_self seg rest)
    have h2 : rest.all realSeg = true :=
      List.all_eq_true.mpr fun x hx => List.all_eq_true.mp h x (List.mem_cons_of_mem seg hx)
    have hb : (seg == ([] : GoStr)) = false ∧ (seg == ['.']) = false ∧
        (seg == ['.', '.']) = false := by
      simp only [realSeg, Bool.not_eq_true', Bool.or_eq_false_iff] at h1
      exact ⟨h1.1.1, h1.1.2, h1.2⟩
    rw [cleanSegs.eq_def]
    simp only [hb.1, hb.2.1, hb.2.2, Bool.or_self, Bool.false_eq_true, if_false]
    rw [cleanSegs_all_real h2 rooted (seg :: acc)]
    simp

/-- On clean keys the recycle destination is plain concatenation:
`path.Join("_recycle/", k)` cleans `_recycle//k` back to `_recycle/k`. -/
theorem recycleKey_clean {k : GoStr} (h : cleanKey k = true) :
    recycleKey k = recyclePath ++ k := by
  have h' : (splitSlash k).all realSeg = true := h
  have hsplit : splitSlash (recyclePath ++ '/' :: k) =
      "_recycle".toList :: ([] : GoStr) :: splitSlash k := by
    have heq : recyclePath ++ '/' :: k = "_recycle".toList ++ '/' :: ('/' :: k) := rfl
    rw [heq, splitSlash, splitSlashAux_append (by decide) ('/' :: k) []]
    rfl
  have hsegs : cleanSegs (splitSlash (recyclePath ++ '/' :: k)) false [] =
      "_recycle".toList :: splitSlash k := by
    rw [hsplit]
    have h1 : cleanSegs ("_recycle".toList :: ([] : GoStr) :: splitSlash k) false [] =
        cleanSegs (splitSlash k) false ["_recycle".toList] := rfl
    rw [h1, cleanSegs_all_real h' false ["_recycle".toList]]
    rfl
  have hout : intercalateSlash ("_recycle".toList :: splitSlash k) =
      "_recycle".toList ++ '/' :: k := by
    rw [intercalateSlash_cons _ (show splitSlash k ≠ [] from splitSlashAux_ne_nil k []),
      intercalateSlash_splitSlash]
  show pathClean (recyclePath ++ '/' :: k) = recyclePath ++ k
  have hne : ((recyclePath ++ '/' :: k) == ([] : GoStr)) = false := rfl
  have hroot : ((recyclePath ++ '/' :: k).take 1 = ['/']) = False := by
    have ht : (recyclePath ++ '/' :: k).take 1 = ['_'] := rfl
    rw [ht]
    simp only [eq_iff_iff, iff_false]
    decide
  rw [pathClean]
  rw [hne]
  simp only [Bool.false_eq_true, if_false, hroot, decide_False]
  rw [hsegs, hout]
  have hcons : "_recycle".toList ++ '/' :: k = recyclePath ++ k := rfl
  rw [hcons]
  have hne2 : ((recyclePath ++ k) == ([] : GoStr)) = false := rfl
  simp only [List.nil_append, hne2, Bool.false_eq_true, if_false]

/-- Per-object behaviour of `DeleteDirectory`'s loop against the bucket
semantics: when the listed keys are present, pairwise distinct and outside
the recycle area, the loop succeeds, moves every listed object under the
recycle prefix, and touches nothing else. -/
theorem deleteDirLoop_spec :
    ∀ (ks : List GoStr) (b : BucketState),
      (∀ k ∈ ks, recyclePath.isPrefixOf k = false) →
      (∀ k ∈ ks, cleanKey k = true) →
      (∀ k ∈ ks, lookupObj b k ≠ none) →
      ks.Nodup →
      (bucketS3Store.deleteDirLoop b ks).2 = none ∧
      (∀ k', k' ∉ ks → (∀ k ∈ ks, recycleKey k ≠ k') →
        lookupObj (bucketS3Store.deleteDirLoop b ks).1 k' = lookupObj b k') ∧
      (∀ k ∈ ks, lookupObj (bucketS3Store.deleteDirLoop b ks).1 (recycleKey k) = lookupObj b k ∧
        lookupObj (bucketS3Store.deleteDirLoop b ks).1 k = none)
  | [], b, _, _, _, _ => by
    refine ⟨rfl, fun k' _ _ => rfl, fun k hk => absurd hk (List.not_mem_nil k)⟩
  | k :: rest, b, hrec, hclean, hpres, hnd => by
    obtain ⟨v, hv⟩ := Option.ne_none_iff_exists'.mp (hpres k (List.mem_cons_self k rest))
    obtain ⟨hk_rest, hnd_rest⟩ := List.nodup_cons.mp hnd
    have hkrec : recyclePath.isPrefixOf k = false := hrec k (List.mem_cons_self k rest)
    have hck : recycleKey k = recyclePath ++ k :=
      recycleKey_clean (hclean k (List.mem_cons_self k rest))
    set b2 := eraseObj (putObj b (recycleKey k) v) k with hb2
    have hstep : bucketS3Store.deleteDirLoop b (k :: rest) =
        bucketS3Store.deleteDirLoop b2 rest := by
      simp [S3Store.deleteDirLoop, bucketS3Store, bucketClient, hv, hb2]
    have hne_rk : ∀ k'' ∈ rest, k'' ≠ recycleKey k := by
      intro k'' hm he
      have := hrec k'' (List.mem_cons_of_mem k hm)
      rw [he, hck, recyclePath_isPrefixOf_concat] at this
      cases this
    have hb2_eq : ∀ k'' , k'' ≠ k → k'' ≠ recycleKey k →
        lookupObj b2 k'' = lookupObj b k'' := by
      intro k'' h1 h2
      rw [hb2, lookupObj_erase_ne _ h1, lookupObj_put_ne _ h2]
    have hpres2 : ∀ k'' ∈ rest, lookupObj b2 k'' ≠ none := by
      intro k'' hm
      rw [hb2_eq k'' (fun he => hk_rest (he ▸ hm)) (hne_rk k'' hm)]
      exact hpres k'' (List.mem_cons_of_mem k hm)
    have hrec2 : ∀ k'' ∈ rest, recyclePath.isPrefixOf k'' = false :=
      fun k'' hm => hrec k'' (List.mem_cons_of_mem k hm)
    have hclean2 : ∀ k'' ∈ rest, cleanKey k'' = true :=
      fun k'' hm => hclean k'' (List.mem_cons_of_mem k hm)
    obtain ⟨ih_err, ih_unt, ih_rec⟩ :=
      deleteDirLoop_spec rest b2 hrec2 hclean2 hpres2 hnd_rest
    rw [hstep]
    refine ⟨ih_err, ?_, ?_⟩
    · intro k' hk' hrk
      have h1 : k' ∉ rest := fun hm => hk' (List.mem_cons_of_mem k hm)
      have h2 : ∀ k'' ∈ rest, recycleKey k'' ≠ k' :=
        fun k'' hm => hrk k'' (List.mem_cons_of_mem k hm)
      rw [ih_unt k' h1 h2]
      exact hb2_eq k' (fun he => hk' (he ▸ List.mem_cons_self k rest))
        (fun he => hrk k (List.mem_cons_self k rest) he.symm)
    · intro k'' hm
      rcases List.mem_cons.mp hm with rfl | hm
      · constructor
        · have h1 : recycleKey k'' ∉ rest := fun hmm => by
            have := hrec2 (recycleKey k'') hmm
            rw [hck, recyclePath_isPrefixOf_concat] at this
            cases this
          have h2 : ∀ kk ∈ rest, recycleKey kk ≠ recycleKey k'' := by
            intro kk hkk he
            rw [recycleKey_clean (hclean2 kk hkk), hck] at he
            exact hk_rest (List.append_cancel_left he ▸ hkk)
          have hne : recycleKey k'' ≠ k'' := by
            rw [hck]
            exact recycleConcat_ne k''
          rw [ih_unt (recycleKey k'') h1 h2, hb2, lookupObj_erase_ne _ hne,
            lookupObj_put_self, hv]
        · have h1 : k'' ∉ rest := hk_rest
          have h2 : ∀ kk ∈ rest, recycleKey kk ≠ k'' := by
            intro kk hkk he
            have := hkrec
            rw [← he, recycleKey_clean (hclean2 kk hkk),
              recyclePath_isPrefixOf_concat] at this
            cases this
          rw [ih_unt k'' h1 h2, hb2, lookupObj_erase_self]
      · obtain ⟨h1, h2⟩ := ih_rec k'' hm
        refine ⟨?_, h2⟩
        rw [h1]
        exact hb2_eq k'' (fun he => hk_rest (he ▸ hm)) (hne_rk k'' hm)

theorem defaultSelect_none {cfgs : List (GoStr × S3Config)} {key : GoStr}
    (h : ∀ pc ∈ cfgs, isKeyStartsWithPrefix key pc.1 = false) :
    defaultSelectConfigCallbackFunc cfgs key = none := by
  induction cfgs with
  | nil => rfl
  | cons pc rest ih =>
    obtain ⟨kp, cfg⟩ := pc
    have h1 := h (kp, cfg) (List.mem_cons_self _ rest)
    simp only [defaultSelectConfigCallbackFunc, h1, Bool.false_eq_true, if_false]
    exact ih fun pc hm => h pc (List.mem_cons_of_mem _ hm)

theorem defaultSelect_some {cfgs : List (GoStr × S3Config)} {key : GoStr} {cfg : S3Config} :
    defaultSelectConfigCallbackFunc cfgs key = some cfg →
    ∃ pc ∈ cfgs, isKeyStartsWithPrefix key pc.1 = true ∧ cfg = pc.2 := by
  induction cfgs with
  | nil => intro h; cases h
  | cons pc rest ih =>
    obtain ⟨kp, c⟩ := pc
    intro h
    by_cases hm : isKeyStartsWithPrefix key kp = true
    · simp only [defaultSelectConfigCallbackFunc, hm, if_true, Option.some.injEq] at h
      exact ⟨(kp, c), List.mem_cons_self _ rest, hm, h.symm⟩
    · simp only [defaultSelectConfigCallbackFunc, hm, if_false] at h
      obtain ⟨pc', hpc', hmatch, he⟩ := ih h
      exact ⟨pc', List.mem_cons_of_mem _ hpc', hmatch, he⟩

/-! ## The claims -/

/-- C4: for each supported object-store scheme (`qiniu`, `s3`) and every key
over the modelled character set that does not itself start with a slash,
`scheme:/k` and `scheme:///k` classify to the same protocol tag and the same
normalized key (the leading slash stripped), both with no error. -/
theorem c4_one_and_three_slashes_agree (sch k : GoStr)
    (hsch : sch = "qiniu".toList ∨ sch = "s3".toList)
    (hk : k.all urlSafeChar = true) (hk0 : k.take 1 ≠ ['/']) :
    GetPathProtocol (sch ++ ':' :: '/' :: k) = (sch, k, none) ∧
    GetPathProtocol (sch ++ ':' :: '/' :: '/' :: '/' :: k) = (sch, k, none) :=
  ⟨getPathProtocol_supported_one_slash hsch hk hk0,
   getPathProtocol_supported_three_slash hsch hk⟩

/-- Witness for C4 at `qiniu:/file/path` and `qiniu:///file/path`. -/
theorem c4_witness :
    GetPathProtocol "qiniu:/file/path".toList = (QiniuProtocol, "file/path".toList, none) ∧
    GetPathProtocol "qiniu:///file/path".toList = (QiniuProtocol, "file/path".toList, none) :=
  c4_one_and_three_slashes_agree "qiniu".toList "file/path".toList
    (Or.inl rfl) (by decide) (by decide)

/-- C5: `GetPathProtocol "/abs/path"` yields the local-filesystem protocol
with the key unchanged and no error; the empty string, every non-empty
relative path over the modelled character set, and every
`scheme://host/key` with a non-empty host yield an error with the unknown
tag. -/
theorem c5_local_vs_failures :
    (GetPathProtocol "/abs/path".toList = (OSProtocol, "/abs/path".toList, none)) ∧
    (GetPathProtocol ([] : GoStr) =
      (UnknownPathProtocol, [], some ("unsupported path: ".toList))) ∧
    (∀ p : GoStr, p ≠ [] → p.all urlSafeChar = true → p.take 1 ≠ ['/'] →
      GetPathProtocol p = (UnknownPathProtocol, p, some ("unsupported path: ".toList ++ p))) ∧
    (∀ sch hs k : GoStr, schemeShaped sch = true → hs ≠ [] →
      hs.all urlSafeChar = true → '/' ∉ hs → k.all urlSafeChar = true →
      (GetPathProtocol (sch ++ ':' :: '/' :: '/' :: (hs ++ '/' :: k))).1 = UnknownPathProtocol ∧
      (GetPathProtocol (sch ++ ':' :: '/' :: '/' :: (hs ++ '/' :: k))).2.2.isSome = true) := by
  refine ⟨by decide, by decide, fun p h1 h2 h3 => getPathProtocol_relative h1 h2 h3, ?_⟩
  intro sch hs k h1 h2 h3 h4 h5
  rw [getPathProtocol_hosted h1 h2 h3 h4 h5]
  exact ⟨rfl, rfl⟩

/-- C6: `IsUnionPath p` is true exactly when classification returns no error
and a protocol other than the local filesystem; in particular `foo:/x`
classifies as unknown with no error, so `IsUnionPath` accepts it. -/
theorem c6_isUnionPath_characterisation :
    (∀ p : GoStr, IsUnionPath p = true ↔
      ((GetPathProtocol p).2.2 = none ∧ (GetPathProtocol p).1 ≠ OSProtocol)) ∧
    GetPathProtocol "foo:/x".toList = (UnknownPathProtocol, "/x".toList, none) ∧
    IsUnionPath "foo:/x".toList = true := by
  refine ⟨fun p => ?_, by decide, by decide⟩
  rw [IsUnionPath]
  rcases h : GetPathProtocol p with ⟨proto, key, err⟩
  cases err with
  | some e => simp
  | none =>
    by_cases hp : proto = OSProtocol
    · simp [hp]
    · simp [hp]

/-- C1 counterexample: on the older façade, with the qiniu primary failing
`Exists` and a healthy reader configured, the façade surfaces the primary's
error and never retries the reader, whose identical call would succeed;
`ListPrefix` likewise returns the primary's error although the reader's call
would succeed.  This refutes the claim that every read-class operation retries
the configured fallback on a primary error and surfaces the fallback's error. -/
theorem c1_counterexample :
    V1.Store.Exists c1Store "qiniu:/k".toList = .val (false, some "primary error".toList) ∧
    c1Store.qiniuReaderStore = some (okBackend [7]) ∧
    (okBackend [7]).Exists "k".toList = .val (true, none) ∧
    V1.Store.ListPrefix c1Store "qiniu:/k".toList = .val (none, some "primary error".toList) ∧
    (okBackend [7]).ListPrefix "k".toList = .val (some ["k".toList], none) :=
  ⟨rfl, rfl, rfl, rfl, rfl⟩

/-- C1 amended: for `Stat`, `DownloadBytes`, `DownloadReader`,
`DownloadRangeBytes` and `DownloadRangeReader` the claim holds as stated: the
primary is tried first, a primary error is retried on the configured reader
with the same normalized key, a primary success is returned, and when both
fail the reader's error is the one surfaced (the result is the reader's call
outcome).  `Exists` deviates: a primary error is returned at once, the reader
being consulted only on a `(false, nil)` primary answer; `ListPrefix`
deviates: the reader is never consulted. -/
theorem c1_read_fallback_amended (s : V1.Store) (key : GoStr) (pb : Backend)
    (rt : Option Backend) (p : GoStr) (offset size : Int)
    (h : s.getStoreByKey key = (some pb, rt, p, none)) :
    (∀ fi e, pb.Stat p = .val (fi, some e) → ∀ rb, rt = some rb →
      V1.Store.Stat s key = rb.Stat p) ∧
    (∀ fi, pb.Stat p = .val (fi, none) → V1.Store.Stat s key = .val (fi, none)) ∧
    (∀ d e, pb.DownloadBytes p = .val (d, some e) → ∀ rb, rt = some rb →
      V1.Store.DownloadBytes s key = rb.DownloadBytes p) ∧
    (∀ d, pb.DownloadBytes p = .val (d, none) →
      V1.Store.DownloadBytes s key = .val (d, none)) ∧
    (∀ d e, pb.DownloadReader p = .val (d, some e) → ∀ rb, rt = some rb →
      V1.Store.DownloadReader s key = rb.DownloadReader p) ∧
    (∀ d, pb.DownloadReader p = .val (d, none) →
      V1.Store.DownloadReader s key = .val (d, none)) ∧
    (∀ d e, pb.DownloadRangeBytes p offset size = .val (d, some e) → ∀ rb, rt = some rb →
      V1.Store.DownloadRangeBytes s key offset size = rb.DownloadRangeBytes p offset size) ∧
    (∀ d, pb.DownloadRangeBytes p offset size = .val (d, none) →
      V1.Store.DownloadRangeBytes s key offset size = .val (d, none)) ∧
    (∀ d e, pb.DownloadRangeReader p offset size = .val (d, some e) → ∀ rb, rt = some rb →
      V1.Store.DownloadRangeReader s key offset size = rb.DownloadRangeReader p offset size) ∧
    (∀ d, pb.DownloadRangeReader p offset size = .val (d, none) →
      V1.Store.DownloadRangeReader s key offset size = .val (d, none)) ∧
    (∀ b0 e, pb.Exists p = .val (b0, some e) →
      V1.Store.Exists s key = .val (false, some e)) ∧
    (∀ rb, rt = some rb → pb.Exists p = .val (false, none) →
      V1.Store.Exists s key = rb.Exists p) ∧
    (pb.Exists p = .val (true, none) → V1.Store.Exists s key = .val (true, none)) ∧
    (V1.Store.ListPrefix s key = callBackend (some pb) fun b => b.ListPrefix p) := by
  refine ⟨?_, ?_, ?_, ?_, ?_, ?_, ?_, ?_, ?_, ?_, ?_, ?_, ?_, ?_⟩
  · intro fi e hpb rb hrt
    simp [V1.Store.Stat, h, callBackend, hpb, hrt]
  · intro fi hpb
    simp [V1.Store.Stat, h, callBackend, hpb]
  · intro d e hpb rb hrt
    simp [V1.Store.DownloadBytes, h, callBackend, hpb, hrt]
  · intro d hpb
    simp [V1.Store.DownloadBytes, h, callBackend, hpb]
  · intro d e hpb rb hrt
    simp [V1.Store.DownloadReader, h, callBackend, hpb, hrt]
  · intro d hpb
    simp [V1.Store.DownloadReader, h, callBackend, hpb]
  · intro d e hpb rb hrt
    simp [V1.Store.DownloadRangeBytes, h, callBackend, hpb, hrt]
  · intro d hpb
    simp [V1.Store.DownloadRangeBytes, h, callBackend, hpb]
  · intro d e hpb rb hrt
    simp [V1.Store.DownloadRangeReader, h, callBackend, hpb, hrt]
  · intro d hpb
    simp [V1.Store.DownloadRangeReader, h, callBackend, hpb]
  · intro b0 e hpb
    simp [V1.Store.Exists, h, callBackend, hpb]
  · intro rb hrt hpb
    simp [V1.Store.Exists, h, callBackend, hpb, hrt]
  · intro hpb
    simp [V1.Store.Exists, h, callBackend, hpb]
  · simp [V1.Store.ListPrefix, h]

/-- Witness for the amended C1: the failing qiniu primary's `DownloadBytes`
is retried on the configured reader and the reader's successful answer is
returned. -/
theorem c1_witness :
    V1.Store.DownloadBytes c1Store "qiniu:/k".toList = .val (some [7], none) := by
  have h := c1_read_fallback_amended c1Store "qiniu:/k".toList
    (failingBackend "primary error".toList) (some (okBackend [7])) "k".toList 0 0 rfl
  exact (h.2.2.1 none "primary error".toList rfl (okBackend [7]) rfl).trans rfl

/-- C2: V1 write-class operations route to the primary backend only: each
result is exactly the primary's call at the normalized key — an expression in
which the reader backend does not occur — and a failing primary's error is
returned unchanged. -/
theorem c2_writes_primary_only (s : V1.Store) (key : GoStr) (st rt : Option Backend)
    (p : GoStr) (data : Bytes) (file : GoStr) (reader : Bytes) (size : Int)
    (h : s.getStoreByKey key = (st, rt, p, none)) :
    V1.Store.UploadData s data key = callBackend st (fun b => b.UploadData data p) ∧
    V1.Store.Upload s file key = callBackend st (fun b => b.Upload file p) ∧
    V1.Store.UploadReader s reader size key =
      callBackend st (fun b => b.UploadReader reader size p) ∧
    V1.Store.Delete s key = callBackend st (fun b => b.Delete p) ∧
    V1.Store.DeleteDirectory s key = callBackend st (fun b => b.DeleteDirectory p) ∧
    (∀ (b : Backend) (e : GoStr), st = some b → b.UploadData data p = .val (some e) →
      V1.Store.UploadData s data key = .val (some e)) := by
  have h1 : V1.Store.UploadData s data key = callBackend st (fun b => b.UploadData data p) := by
    simp [V1.Store.UploadData, h]
  refine ⟨h1, ?_, ?_, ?_, ?_, ?_⟩
  · simp [V1.Store.Upload, h]
  · simp [V1.Store.UploadReader, h]
  · simp [V1.Store.Delete, h]
  · simp [V1.Store.DeleteDirectory, h]
  · intro b e hst hb
    rw [h1, hst]
    simpa [callBackend] using hb

/-- Witness for C2: the failing qiniu primary's write error is returned
although a healthy reader is configured. -/
theorem c2_witness :
    V1.Store.UploadData c2Store [1] "qiniu:/k".toList = .val (some "write failed".toList) := by
  have h := c2_writes_primary_only c2Store "qiniu:/k".toList
    (some (failingBackend "write failed".toList)) (some (okBackend [7])) "k".toList
    [1] [] [] 0 rfl
  exact h.2.2.2.2.2 (failingBackend "write failed".toList) "write failed".toList rfl rfl

/-- C3: when a key classifies to an object-store protocol for which neither a
primary nor a reader backend is configured, the newer façade's routing fails
with the not-configured error naming the protocol, and every façade operation
returns that error without any backend in hand. -/
theorem c3_not_configured (s : V2.Store) (key p proto : GoStr)
    (data : Bytes) (file : GoStr) (reader : Bytes) (size offset len : Int)
    (hkey : GetPathProtocol key = (proto, p, none))
    (hcase : (proto = QiniuProtocol ∧ s.qiniuStore = none ∧ s.qiniuReaderStore = none) ∨
             (proto = S3Protocol ∧ s.s3Store = none ∧ s.s3ReaderStore = none)) :
    s.getStoreByKey key = (none, none, p, some (proto ++ [' '] ++ V2.ErrNotConfigured)) ∧
    V2.Store.ListPrefix s key = .val (none, some (proto ++ [' '] ++ V2.ErrNotConfigured)) ∧
    V2.Store.UploadData s data key = .val (some (proto ++ [' '] ++ V2.ErrNotConfigured)) ∧
    V2.Store.Upload s file key = .val (some (proto ++ [' '] ++ V2.ErrNotConfigured)) ∧
    V2.Store.UploadReader s reader size key =
      .val (some (proto ++ [' '] ++ V2.ErrNotConfigured)) ∧
    V2.Store.DeleteDirectory s key = .val (some (proto ++ [' '] ++ V2.ErrNotConfigured)) ∧
    V2.Store.Delete s key = .val (some (proto ++ [' '] ++ V2.ErrNotConfigured)) ∧
    V2.Store.Exists s key = .val (false, some (proto ++ [' '] ++ V2.ErrNotConfigured)) ∧
    V2.Store.Stat s key = .val (⟨0⟩, some (proto ++ [' '] ++ V2.ErrNotConfigured)) ∧
    V2.Store.DownloadBytes s key = .val (none, some (proto ++ [' '] ++ V2.ErrNotConfigured)) ∧
    V2.Store.DownloadReader s key = .val (none, some (proto ++ [' '] ++ V2.ErrNotConfigured)) ∧
    V2.Store.DownloadRangeBytes s key offset len =
      .val (none, some (proto ++ [' '] ++ V2.ErrNotConfigured)) ∧
    V2.Store.DownloadRangeReader s key offset len =
      .val (none, some (proto ++ [' '] ++ V2.ErrNotConfigured)) := by
  have hroute : s.getStoreByKey key =
      (none, none, p, some (proto ++ [' '] ++ V2.ErrNotConfigured)) := by
    rcases hcase with ⟨rfl, h1, h2⟩ | ⟨rfl, h1, h2⟩ <;>
      simp [V2.Store.getStoreByKey, hkey, h1, h2, QiniuProtocol, S3Protocol]
  refine ⟨hroute, ?_, ?_, ?_, ?_, ?_, ?_, ?_, ?_, ?_, ?_, ?_, ?_⟩
  · simp [V2.Store.ListPrefix, hroute]
  · simp [V2.Store.UploadData, hroute]
  · simp [V2.Store.Upload, hroute]
  · simp [V2.Store.UploadReader, hroute]
  · simp [V2.Store.DeleteDirectory, hroute]
  · simp [V2.Store.Delete, hroute]
  · simp [V2.Store.Exists, hroute]
  · simp [V2.Store.Stat, hroute]
  · simp [V2.Store.DownloadBytes, hroute]
  · simp [V2.Store.DownloadReader, hroute]
  · simp [V2.Store.DownloadRangeBytes, hroute]
  · simp [V2.Store.DownloadRangeReader, hroute]

/-- Witness for C3 on a fully unconfigured store and the key `qiniu:/k`. -/
theorem c3_witness :
    V2.Store.DownloadBytes c3Store "qiniu:/k".toList =
      .val (none, some ("qiniu store is not configured".toList)) := by
  have h := c3_not_configured c3Store "qiniu:/k".toList "k".toList QiniuProtocol
    [] [] [] 0 0 0 (by decide) (Or.inl ⟨rfl, rfl, rfl⟩)
  exact h.2.2.2.2.2.2.2.2.2.1

/-- C8 amended: the six read-class methods of the newer façade never produce
a panic outcome — every panic raised by a dispatched backend call is converted
by the recover boundary into an ordinary error result.  The write-class
methods and `ListPrefix` carry no such boundary (see the counterexample). -/
theorem c8_read_class_never_panics (s : V2.Store) (key : GoStr) (offset size : Int) :
    (V2.Store.Stat s key).isVal = true ∧
    (V2.Store.Exists s key).isVal = true ∧
    (V2.Store.DownloadBytes s key).isVal = true ∧
    (V2.Store.DownloadReader s key).isVal = true ∧
    (V2.Store.DownloadRangeBytes s key offset size).isVal = true ∧
    (V2.Store.DownloadRangeReader s key offset size).isVal = true := by
  refine ⟨?_, ?_, ?_, ?_, ?_, ?_⟩
  · unfold V2.Store.Stat
    repeat first | rfl | split
  · unfold V2.Store.Exists
    repeat first | rfl | split
  · unfold V2.Store.DownloadBytes
    repeat first | rfl | split
  · unfold V2.Store.DownloadReader
    repeat first | rfl | split
  · unfold V2.Store.DownloadRangeBytes
    repeat first | rfl | split
  · unfold V2.Store.DownloadRangeReader
    repeat first | rfl | split

/-- C8 counterexample: a backend panic inside the write-class `UploadData`
dispatch propagates to the caller as a panic — no recover boundary guards the
write-class methods — while the same panicking backend behind the read-class
`Exists` is converted into the error `recover: boom`. -/
theorem c8_counterexample :
    V2.Store.UploadData c8Store [1] "qiniu:/k".toList = .panicked "boom".toList ∧
    V2.Store.Exists c8Store "qiniu:/k".toList =
      .val (false, some ("recover: boom".toList)) :=
  ⟨rfl, rfl⟩

/-- C7: prefix matching treats both key and prefix as ending in `/` before a
string-prefix comparison — `a` matches `a/x` and `a/` but not `ab/x` — and the
default selector's `getStore` builds a backend from some matching config,
while a key matched by no table prefix yields the
`no s3 configuration found for key` error naming the key, building nothing. -/
theorem c7_prefix_selection :
    (isKeyStartsWithPrefix "a/x".toList "a".toList = true ∧
     isKeyStartsWithPrefix "a/".toList "a".toList = true ∧
     isKeyStartsWithPrefix "ab/x".toList "a".toList = false) ∧
    (∀ key pfx : GoStr, isKeyStartsWithPrefix key pfx =
      (makeSureKeyAsDir pfx).isPrefixOf (makeSureKeyAsDir key)) ∧
    (∀ (NewS3Store : S3Config → Except GoStr Backend) (s : S3MultiStoreConfig) (key : GoStr),
      s.selectConfig = defaultSelectConfigCallbackFunc →
      ((∀ pc ∈ s.cfgs, isKeyStartsWithPrefix key pc.1 = false) →
        S3MultiStoreConfig.getStore NewS3Store s key =
          .error ("no s3 configuration found for key: ".toList ++ key)) ∧
      (∀ r, S3MultiStoreConfig.getStore NewS3Store s key = .ok r →
        ∃ pc ∈ s.cfgs, isKeyStartsWithPrefix key pc.1 = true ∧ NewS3Store pc.2 = .ok r)) := by
  refine ⟨⟨by decide, by decide, by decide⟩, fun key pfx => rfl, ?_⟩
  intro NS s key hsel
  constructor
  · intro hnone
    simp [S3MultiStoreConfig.getStore, hsel, defaultSelect_none hnone]
  · intro r hok
    simp only [S3MultiStoreConfig.getStore, hsel] at hok
    cases hsome : defaultSelectConfigCallbackFunc s.cfgs key with
    | none => simp only [hsome] at hok; cases hok
    | some cfg =>
      simp only [hsome] at hok
      obtain ⟨pc, hpc, hmatch, he⟩ := defaultSelect_some hsome
      exact ⟨pc, hpc, hmatch, he ▸ hok⟩

/-- Witness for C7: the key `prefix2/x` matches no prefix of the one-entry
table and `getStore` returns the error naming the key. -/
theorem c7_witness :
    S3MultiStoreConfig.getStore (fun _ => Except.ok (okBackend [1])) c7Table
      "prefix2/x".toList =
      .error ("no s3 configuration found for key: prefix2/x".toList) :=
  (c7_prefix_selection.2.2 (fun _ => Except.ok (okBackend [1])) c7Table
    "prefix2/x".toList rfl).1 (by decide)

/-- C9: for every non-nil Qiniu or S3 backend and every key, the backend's
`Exists` returns a nil error; a failing underlying check is reported as
`(false, nil)`, so at this interface an unreachable backend is
indistinguishable from an absent key. -/
theorem c9_exists_swallows_errors :
    (∀ (st : QiniuStore) (key : GoStr), (QiniuStore.Exists (some st) key).2 = none) ∧
    (∀ (st : QiniuStore) (key e : GoStr),
      st.downloader.DownloadCheck (trimLeadSlash key) = .error e →
      QiniuStore.Exists (some st) key = (false, none)) ∧
    (∀ (σ : Type) (s : S3Store σ) (stt : σ) (key : GoStr),
      (S3Store.Exists (some s) stt key).2 = none) ∧
    (∀ (σ : Type) (s : S3Store σ) (stt : σ) (key e : GoStr),
      s.client.StatObject stt (trimLeadSlash key) = some e →
      S3Store.Exists (some s) stt key = (false, none)) := by
  refine ⟨?_, ?_, ?_, ?_⟩
  · intro st key
    rcases hc : st.downloader.DownloadCheck (trimLeadSlash key) with e | n <;>
      simp [QiniuStore.Exists, hc]
  · intro st key e he
    simp [QiniuStore.Exists, he]
  · intro σ s stt key
    rcases hc : s.client.StatObject stt (trimLeadSlash key) with _ | e <;>
      simp [S3Store.Exists, hc]
  · intro σ s stt key e he
    simp [S3Store.Exists, he]

/-- C10: for any client, `S3Store.Delete` copies the object to
`path.Join(recyclePath, key)` first and runs the removal only when the copy
succeeded, a failing copy returning that error wrapped; against the bucket
semantics the deleted data then sits at the recycle destination with the
original gone, a failing copy leaves the bucket unchanged, and
`DeleteDirectory` performs the same copy-then-remove per object under the
directory prefix.  The remains-under-`_recycle/` conclusions are stated for
clean keys (`cleanKey`), where `path.Join(recyclePath, k) = "_recycle/" ++ k`;
for a key with `.`/`..` or empty segments `path.Clean` sends the copy
elsewhere (`path.Join("_recycle/", "../x") = "x"`), as the trailing examples
show. -/
theorem c10_soft_delete :
    (∀ (σ : Type) (s : S3Store σ) (st st1 : σ) (key e : GoStr),
      s.client.CopyObject st (recycleKey (trimLeadSlash key)) (trimLeadSlash key) =
        (st1, some e) →
      s.Delete st key = (st1, some ("copy object: ".toList ++ e))) ∧
    (∀ (σ : Type) (s : S3Store σ) (st st1 : σ) (key : GoStr),
      s.client.CopyObject st (recycleKey (trimLeadSlash key)) (trimLeadSlash key) =
        (st1, none) →
      s.Delete st key = s.client.RemoveObject st1 (trimLeadSlash key)) ∧
    (∀ (b : BucketState) (key : GoStr) (v : Bytes),
      cleanKey (trimLeadSlash key) = true →
      lookupObj b (trimLeadSlash key) = some v →
      (bucketS3Store.Delete b key).2 = none ∧
      lookupObj (bucketS3Store.Delete b key).1 (recycleKey (trimLeadSlash key)) = some v ∧
      lookupObj (bucketS3Store.Delete b key).1 (trimLeadSlash key) = none) ∧
    (∀ (b : BucketState) (key : GoStr),
      lookupObj b (trimLeadSlash key) = none →
      bucketS3Store.Delete b key = (b, some ("copy object: ".toList ++ noSuchKeyErr))) ∧
    (∀ (b : BucketState) (dir : GoStr),
      (∀ kv ∈ b, recyclePath.isPrefixOf kv.1 = false) →
      (∀ kv ∈ b, cleanKey kv.1 = true) →
      (b.map Prod.fst).Nodup →
      (bucketS3Store.DeleteDirectory b dir).2 = none ∧
      (∀ kv ∈ b, (makeSureKeyAsDir (trimLeadSlash dir)).isPrefixOf kv.1 = true →
        lookupObj (bucketS3Store.DeleteDirectory b dir).1 (recycleKey kv.1) =
          lookupObj b kv.1 ∧
        lookupObj (bucketS3Store.DeleteDirectory b dir).1 kv.1 = none)) := by
  refine ⟨?_, ?_, ?_, ?_, ?_⟩
  · intro σ s st st1 key e hc
    simp [S3Store.Delete, hc]
  · intro σ s st st1 key hc
    simp [S3Store.Delete, hc]
  · intro b key v hclean hv
    have hne : recycleKey (trimLeadSlash key) ≠ trimLeadSlash key := by
      rw [recycleKey_clean hclean]
      exact recycleConcat_ne _
    have hstep : bucketS3Store.Delete b key =
        (eraseObj (putObj b (recycleKey (trimLeadSlash key)) v) (trimLeadSlash key), none) := by
      simp [S3Store.Delete, bucketS3Store, bucketClient, hv]
    rw [hstep]
    exact ⟨rfl,
      by rw [lookupObj_erase_ne _ hne, lookupObj_put_self],
      lookupObj_erase_self _ _⟩
  · intro b key hv
    simp [S3Store.Delete, bucketS3Store, bucketClient, hv]
  · intro b dir hrec hcleanb hnd
    have hDD : bucketS3Store.DeleteDirectory b dir =
        bucketS3Store.deleteDirLoop b
          ((b.filter fun kv => (makeSureKeyAsDir (trimLeadSlash dir)).isPrefixOf kv.1).map
            Prod.fst) := rfl
    have hks_rec : ∀ k ∈ (b.filter fun kv =>
        (makeSureKeyAsDir (trimLeadSlash dir)).isPrefixOf kv.1).map Prod.fst,
        recyclePath.isPrefixOf k = false := by
      intro k hk
      obtain ⟨kv, hkv, rfl⟩ := List.mem_map.mp hk
      exact hrec kv (List.mem_of_mem_filter hkv)
    have hks_pres : ∀ k ∈ (b.filter fun kv =>
        (makeSureKeyAsDir (trimLeadSlash dir)).isPrefixOf kv.1).map Prod.fst,
        lookupObj b k ≠ none := by
      intro k hk
      obtain ⟨kv, hkv, rfl⟩ := List.mem_map.mp hk
      obtain ⟨k1, v1⟩ := kv
      exact lookupObj_mem (List.mem_of_mem_filter hkv)
    have hks_clean : ∀ k ∈ (b.filter fun kv =>
        (makeSureKeyAsDir (trimLeadSlash dir)).isPrefixOf kv.1).map Prod.fst,
        cleanKey k = true := by
      intro k hk
      obtain ⟨kv, hkv, rfl⟩ := List.mem_map.mp hk
      exact hcleanb kv (List.mem_of_mem_filter hkv)
    have hks_nd : ((b.filter fun kv =>
        (makeSureKeyAsDir (trimLeadSlash dir)).isPrefixOf kv.1).map Prod.fst).Nodup :=
      List.Nodup.sublist ((List.filter_sublist b).map Prod.fst) hnd
    obtain ⟨h1, h2, h3⟩ := deleteDirLoop_spec _ b hks_rec hks_clean hks_pres hks_nd
    rw [hDD]
    refine ⟨h1, ?_⟩
    intro kv hkv hpfx
    have hmem : kv.1 ∈ (b.filter fun kv =>
        (makeSureKeyAsDir (trimLeadSlash dir)).isPrefixOf kv.1).map Prod.fst :=
      List.mem_map.mpr ⟨kv, List.mem_filter.mpr ⟨hkv, hpfx⟩, rfl⟩
    exact h3 kv.1 hmem

example : GetPathProtocol "qiniu:/file/path".toList = (QiniuProtocol, "file/path".toList, none) := by decide
example : GetPathProtocol "qiniu:///file/path".toList = (QiniuProtocol, "file/path".toList, none) := by decide
example : GetPathProtocol "s3:/x".toList = (S3Protocol, "x".toList, none) := by decide
example : GetPathProtocol "/abs/path".toList = (OSProtocol, "/abs/path".toList, none) := by decide
example : (GetPathProtocol "rel/path".toList).1 = UnknownPathProtocol := by decide
example : (GetPathProtocol "rel/path".toList).2.2.isSome = true := by decide
example : (GetPathProtocol ([] : GoStr)).2.2.isSome = true := by decide
example : (GetPathProtocol "qiniu://host/x".toList).2.2.isSome = true := by decide
example : GetPathProtocol "foo:/x".toList = (UnknownPathProtocol, "/x".toList, none) := by decide
example : IsUnionPath "foo:/x".toList = true := by decide
example : IsUnionPath "/abs".toList = false := by decide
example : IsUnionPath "qiniu:/x".toList = true := by decide
example :
    (bucketS3Store.Delete [("a/x".toList, [1])] "a/x".toList) =
      ([("_recycle/a/x".toList, [1])], none) := by decide
example :
    (bucketS3Store.Delete [("b".toList, [2])] "a/x".toList).2 =
      some ("copy object: ".toList ++ noSuchKeyErr) := by decide
example :
    (bucketS3Store.DeleteDirectory [("a/x".toList, [1]), ("b".toList, [2])] "a".toList) =
      ([("_recycle/a/x".toList, [1]), ("b".toList, [2])], none) := by decide
example : pathClean ([] : GoStr) = ".".toList := by decide
example : pathClean "a/..".toList = ".".toList := by decide
example : pathClean "/..".toList = "/".toList := by decide
example : pathClean "/../a".toList = "/a".toList := by decide
example : pathClean "a//b/./c".toList = "a/b/c".toList := by decide
example : pathClean "a/../../b".toList = "../b".toList := by decide
example : pathClean "a/b/".toList = "a/b".toList := by decide
example : pathJoin "a".toList ([] : GoStr) = "a".toList := by decide
example : pathJoin ([] : GoStr) "b".toList = "b".toList := by decide
example : pathJoin ([] : GoStr) ([] : GoStr) = ([] : GoStr) := by decide
example : recycleKey "a/x".toList = "_recycle/a/x".toList := by decide
example : recycleKey "../x".toList = "x".toList := by decide
example : recycleKey ([] : GoStr) = "_recycle".toList := by decide
example : cleanKey "a/x".toList = true ∧ cleanKey "../x".toList = false ∧
    cleanKey ([] : GoStr) = false ∧ cleanKey "a//x".toList = false := by decide
example :
    (bucketS3Store.Delete [("../x".toList, [1]), ("x".toList, [2])] "../x".toList) =
      ([("x".toList, [1])], none) := by decide
